import Mathlib

/-!
Verification of the `python_command_terminal` repository against its
natural-language specification.

The development shallowly embeds `src/terminal.py` (class `EnhancedTerminal`)
into Lean.  Command lines and path strings are modelled as `List Char`
(`Str`), the host filesystem visible to the program as a finite association
list from absolute normalized paths to entries (`FileSys`), and the external
effects of the program (the remote AI endpoint, the interactive confirmation
prompt, subprocess execution and process/system introspection via `psutil`)
as oracle fields of an environment record (`Env`).  General recursion through
the AI replay loop (`_handle_ai_command` calls `execute_command` on each
AI-suggested command) is embedded with an explicit fuel parameter.
-/

namespace Terminal

/-- Command lines, path strings and message strings, modelled as lists of
characters so that proofs can proceed by structural induction. -/
abbrev Str := List Char

/-- Coerce a Lean string literal into the `Str` representation. -/
def str (s : String) : Str := s.data

/-- Python `str.split()` whitespace (the characters relevant to this model). -/
def isWS (c : Char) : Bool := c = ' ' || c = '\t' || c = '\n' || c = '\r'

/-- Worker for `pySplit`: `acc` holds the reversed characters of the token
currently being scanned. -/
def splitAux : Str → Str → List Str
  | [], acc => if acc.isEmpty then [] else [acc.reverse]
  | c :: rest, acc =>
    if isWS c then
      if acc.isEmpty then splitAux rest [] else acc.reverse :: splitAux rest []
    else splitAux rest (c :: acc)

/-- Python `str.split()` with no argument: split on runs of whitespace,
discarding empty tokens. -/
def pySplit (s : Str) : List Str := splitAux s []

/-- Lower-case one ASCII character, as `str.lower()` does on ASCII input. -/
def lowerChar (c : Char) : Char :=
  if 'A' ≤ c ∧ c ≤ 'Z' then Char.ofNat (c.toNat + 32) else c

/-- Python `str.lower()` on ASCII strings. -/
def lowerStr (s : Str) : Str := s.map lowerChar

/-- True when `command.strip()` is empty in Python, i.e. the line is
whitespace-only (or empty). -/
def isBlank (s : Str) : Bool := s.all isWS

/-- Python `command.replace(old, new, 1)`: replace the first occurrence of
`old` (as a substring) by `new`. -/
def replaceFirst : Str → Str → Str → Str
  | [], _, _ => []
  | c :: rest, old, new =>
    if old.isPrefixOf (c :: rest) then new ++ (c :: rest).drop old.length
    else c :: replaceFirst rest old new

/-- Python `needle in haystack` on strings: substring containment. -/
def strInfix : Str → Str → Bool
  | p, [] => p.isEmpty
  | p, c :: rest => p.isPrefixOf (c :: rest) || strInfix p rest

/-- Python `str.rstrip()`: drop trailing whitespace. -/
def rstrip (s : Str) : Str := (s.reverse.dropWhile isWS).reverse

/-- Decimal rendering of a natural number (for line numbers, history indices
and exit codes appearing inside messages). -/
def natToStr (n : Nat) : Str := Nat.toDigits 10 n

/-- Python `f"{s:>w}"`-style right justification used by `_handle_history`. -/
def rjust (w : Nat) (s : Str) : Str := List.replicate (w - s.length) ' ' ++ s

/-- Split a string on a separator character, keeping empty pieces
(Python `str.split(sep)` with an explicit separator). -/
def splitOnChar (sep : Char) : Str → List Str
  | [] => [[]]
  | c :: rest =>
    let r := splitOnChar sep rest
    if c = sep then [] :: r
    else match r with
      | [] => [[c]]
      | h :: t => (c :: h) :: t

/-- The lines produced by iterating over an open Python text file, with the
trailing newlines already removed: an empty file yields no lines, and a
trailing newline does not produce a final empty line. -/
def pyLines (s : Str) : List Str :=
  if s.isEmpty then []
  else
    let parts := splitOnChar '\n' s
    match parts.getLast? with
    | some l => if l.isEmpty then parts.dropLast else parts
    | none => parts

/-! ## Paths

Absolute paths are represented, once resolved, as lists of name components
(`Path`); the empty list is the filesystem root `/`.  The string-level
functions below model `os.path.join`, `os.path.isabs`, `os.path.expanduser`
and the resolution performed by `os.chdir`/`os.getcwd` (no symlinks exist in
the model). -/

abbrev Path := List Str

/-- `os.path.isabs` on POSIX: the string starts with a slash. -/
def isAbs (s : Str) : Bool := s.head? = some '/'

/-- `os.path.join a b` on POSIX (two-argument form, as used by the source). -/
def pyJoin (a b : Str) : Str :=
  if isAbs b then b
  else if a.getLast? = some '/' then a ++ b
  else a ++ '/' :: b

/-- The home directory used to model `os.path.expanduser`. -/
def homeDir : Str := str "/home/user"

/-- `os.path.expanduser`: replace a leading `~` (alone or followed by a
slash) with the home directory. -/
def expandUser (s : Str) : Str :=
  match s with
  | '~' :: rest =>
    if rest.isEmpty || rest.head? = some '/' then homeDir ++ rest else s
  | _ => s

/-- Split a path string on slashes (empty pieces are later discarded by
`normalize`). -/
def splitSlash (s : Str) : List Str := splitOnChar '/' s

/-- Normalize path components the way the kernel resolves them for
`os.chdir`/`os.getcwd`: empty components and `.` are dropped, `..` pops the
previous component (a no-op at the root). -/
def normalize : List Str → List Str → Path
  | [], acc => acc.reverse
  | c :: rest, acc =>
    if c.isEmpty || c = str "." then normalize rest acc
    else if c = str ".." then normalize rest acc.tail
    else normalize rest (c :: acc)

/-- Resolve a path string `p` against the absolute directory string `cwd`
(models handing the string to an OS call while the process cwd is `cwd`). -/
def resolveFrom (cwd p : Str) : Path := normalize (splitSlash (pyJoin cwd p)) []

/-- The component form of an absolute directory string. -/
def curPath (cwd : Str) : Path := normalize (splitSlash cwd) []

/-- Render a resolved path as the string `os.getcwd` would return. -/
def pathToStr (p : Path) : Str := '/' :: List.intercalate (str "/") p

/-! ## Filesystem -/

/-- A filesystem entry: a regular file with its text content and a
readability bit (modelling read permission), or a directory. -/
inductive FEntry where
  | file (content : Str) (readable : Bool)
  | dir
deriving DecidableEq, Repr

/-- The filesystem visible to the program: a finite association list from
absolute normalized paths to entries.  Lookup takes the first match. -/
structure FileSys where
  entries : List (Path × FEntry)
deriving DecidableEq, Repr

/-- Look up a path; the root `[]` is always a directory. -/
def fsEntry (fs : FileSys) (p : Path) : Option FEntry :=
  if p.isEmpty then some FEntry.dir
  else (fs.entries.find? (fun e => decide (e.1 = p))).map (fun e => e.2)

/-- `os.listdir`: the names of the immediate children of directory `p`. -/
def listNames (fs : FileSys) (p : Path) : List Str :=
  fs.entries.filterMap (fun e =>
    if e.1 ≠ [] ∧ e.1.dropLast = p then e.1.getLast? else none)

/-- Result of opening a file for reading (`open(path, "r")`). -/
inductive ReadRes where
  | ok (content : Str)
  | notFound
  | permDenied
  | isDirErr
deriving DecidableEq, Repr

/-- Open the file named by string `p` (resolved against `cwd`) for reading.
A missing path raises `FileNotFoundError`, an unreadable file
`PermissionError`, and a directory `IsADirectoryError`. -/
def readFile (fs : FileSys) (cwd p : Str) : ReadRes :=
  match fsEntry fs (resolveFrom cwd p) with
  | some (FEntry.file content true) => ReadRes.ok content
  | some (FEntry.file _ false) => ReadRes.permDenied
  | some FEntry.dir => ReadRes.isDirErr
  | none => ReadRes.notFound

/-- Delete the entry at `p` (models `os.remove` / `os.rmdir` after the
handler has already validated the entry kind). -/
def removeEntry (fs : FileSys) (p : Path) : FileSys :=
  ⟨fs.entries.filter (fun e => decide (e.1 ≠ p))⟩

/-- `shutil.rmtree`: delete the entry at `p` together with every entry
below it. -/
def rmtree (fs : FileSys) (p : Path) : FileSys :=
  ⟨fs.entries.filter (fun e => decide (¬ p.IsPrefix e.1))⟩

/-- Create or overwrite a regular file entry at `p`. -/
def setFile (fs : FileSys) (p : Path) (content : Str) : FileSys :=
  ⟨(p, FEntry.file content true) :: fs.entries.filter (fun e => decide (e.1 ≠ p))⟩

/-- Worker for `makedirs`: walk the components of the target path from
`base`, creating each missing directory; stop with errno 17
(`FileExistsError`, final component exists as a file under `exist_ok=True`)
or errno 20 (`NotADirectoryError`, an intermediate component is a file).
Directories already created persist when a later component fails, as with
`os.makedirs`. -/
def makedirsAux : FileSys → Path → List Str → FileSys × Option Nat
  | fs, _, [] => (fs, none)
  | fs, base, [c] =>
    let p := base ++ [c]
    match fsEntry fs p with
    | some FEntry.dir => (fs, none)
    | some (FEntry.file _ _) => (fs, some 17)
    | none => (⟨fs.entries ++ [(p, FEntry.dir)]⟩, none)
  | fs, base, c :: c2 :: rest =>
    let p := base ++ [c]
    match fsEntry fs p with
    | some FEntry.dir => makedirsAux fs p (c2 :: rest)
    | some (FEntry.file _ _) => (fs, some 20)
    | none => makedirsAux ⟨fs.entries ++ [(p, FEntry.dir)]⟩ p (c2 :: rest)

/-- `os.makedirs(path, exist_ok=True)`. -/
def makedirs (fs : FileSys) (p : Path) : FileSys × Option Nat := makedirsAux fs [] p

/-! ## Glob expansion -/

/-- `fnmatch`-style matching for patterns built from literal characters,
`*` and `?` (the pattern forms the source's wildcard handling exercises).
`*` consumes an arbitrary prefix of the name, matching the remaining
pattern against some suffix. -/
def globMatch : Str → Str → Bool
  | [], s => s.isEmpty
  | '*' :: ps, s => (List.tails s).any (fun t => globMatch ps t)
  | '?' :: ps, s =>
    (match s with
     | [] => false
     | _ :: s2 => globMatch ps s2)
  | c :: ps, s =>
    (match s with
     | [] => false
     | d :: s2 => c = d && globMatch ps s2)

/-- Whether a token contains a glob wildcard (`'*' in arg or '?' in arg`). -/
def hasWildcard (s : Str) : Bool := s.contains '*' || s.contains '?'

/-- `glob.glob(os.path.join(cwd, pat))`, modelled only for a slash-free
single-component pattern without `fnmatch` character classes (no `'/'` and
no `'['` in `pat`; the wildcards covered are `*` and `?`): names in the
current directory matching the pattern (dot-files are skipped unless the
pattern itself starts with a dot), each returned joined onto `cwd` as
`glob` does.  Theorems whose conclusion depends on the emptiness of this
expansion carry the slash-free/class-free side condition. -/
def globExpand (fs : FileSys) (cwd pat : Str) : List Str :=
  (listNames fs (curPath cwd)).filterMap (fun n =>
    if (pat.head? = some '.' ∨ n.head? ≠ some '.') ∧ globMatch pat n = true
    then some (pyJoin cwd n) else none)

end Terminal

namespace Terminal

/-! ## Session state, external environment, messages -/

/-- The mutable state of one `EnhancedTerminal` instance: `current_dir`
(kept in sync with the process working directory by `_handle_cd`),
`command_history`, and the filesystem the handlers act on. -/
structure TermState where
  currentDir : Str
  history : List Str
  fs : FileSys
deriving DecidableEq, Repr

/-- The structured reply of `GeminiAI.interpret_command`, as read back by
`_handle_ai_command` through `dict.get` with defaults. -/
structure AIResp where
  success : Bool
  commands : List Str
  explanation : Str
  errorMessage : Str

/-- The user's reaction to the destructive-operation confirmation prompt:
an answer string from `input(...)`, or a `KeyboardInterrupt`. -/
inductive ConfirmAns where
  | answer (s : Str)
  | interrupt

/-- Outcome of `psutil.Process(pid).terminate()` in `_handle_kill`. -/
inductive KillRes where
  | ok
  | noSuchProcess
  | accessDenied
deriving DecidableEq, Repr

/-- The external world: whether a Gemini API key was supplied, the remote
AI interpreter (query, current directory, directory listing ↦ reply), the
confirmation prompt's outcome, subprocess execution for the system-command
fallback (command, cwd ↦ combined output and return code), the
`psutil` introspection backing `ps`/`top`/`df`/`du`/`free`/`uptime`
(command name, args ↦ either the formatted output or the message of the
exception the handler catches — the source wraps each of these bodies in
`try/except` and itself decides the exit code), the `time.strftime` output
of `date` (which the source returns with exit code 0, no `except` clause),
the kill outcome per pid, and the `USERNAME` environment value. -/
structure Env where
  hasAI : Bool
  interpret : Str → Str → List Str → AIResp
  confirmAns : ConfirmAns
  sysExec : Str → Str → Str × Nat
  sysInfo : Str → List Str → Except Str Str
  dateStr : Str
  killOutcome : Int → KillRes
  userName : Str

/-- `colorama.Fore.RED`. -/
def foreRED : Str := str "\x1b[31m"

/-- `colorama.Fore.YELLOW`. -/
def foreYEL : Str := str "\x1b[33m"

/-- `colorama.Fore.GREEN`. -/
def foreGRN : Str := str "\x1b[32m"

/-- `colorama.Fore.BLUE`. -/
def foreBLU : Str := str "\x1b[34m"

/-- `colorama.Style.RESET_ALL`. -/
def styleRST : Str := str "\x1b[0m"

/-- A red error message, as every handler formats its failures. -/
def redMsg (m : Str) : Str := foreRED ++ m ++ styleRST

/-- The uniform `try/except` shape of `_handle_ps`, `_handle_top`,
`_handle_df`, `_handle_du`, `_handle_free` and `_handle_uptime`: a
successful introspection returns its formatted output with exit code 0; an
exception is caught and reported as `f"{name}: {e}"` in red with exit
code 1. -/
def sysInfoResult (env : Env) (c : Str) (args : List Str) : Str × Nat :=
  match env.sysInfo c args with
  | Except.ok out => (out, 0)
  | Except.error e => (redMsg (c ++ str ": " ++ e), 1)

/-- A yellow informational message. -/
def yelMsg (m : Str) : Str := foreYEL ++ m ++ styleRST

/-! ## Alias expansion (`_expand_aliases` and the fixed table) -/

/-- The fixed alias table from `EnhancedTerminal.__init__`. -/
def aliases : List (Str × Str) :=
  [ (str "ll", str "ls -la"), (str "la", str "ls -la"),
    (str "..", str "cd .."), (str "...", str "cd ../.."),
    (str "h", str "history"), (str "c", str "clear"), (str "q", str "exit") ]

/-- Dictionary lookup in the alias table. -/
def lookupAlias (t : Str) : Option Str :=
  (aliases.find? (fun p => decide (p.1 = t))).map (fun p => p.2)

/-- `_expand_aliases`: if the line's first whitespace-delimited token is an
alias key, replace its first occurrence in the raw line by the expansion
(`command.replace(parts[0], self.aliases[parts[0]], 1)`); otherwise return
the line unchanged. -/
def expandAliases (cmd : Str) : Str :=
  match pySplit cmd with
  | [] => cmd
  | t :: _ =>
    match lookupAlias t with
    | some e => replaceFirst cmd t e
    | none => cmd

/-! ## Built-in handlers

Each handler mirrors the corresponding `_handle_*` method.  Handlers that
can let a Python exception escape their own `except` clauses (to be caught
by the generic handler at the dispatch boundary) return
`Except Str ...` with the escaping exception's message in the error case;
the state is returned separately since mutations performed before the
exception persist. -/

/-- `_handle_cd`.  Directory read permissions are not modelled (no spec
claim exercises `cd`'s `PermissionError` branch); `os.chdir` on a file
raises `NotADirectoryError`, which `_handle_cd` does not catch. -/
def handleCd (st : TermState) (args : List Str) :
    TermState × Except Str (Str × Nat) :=
  let newDir :=
    match args with
    | [] => homeDir
    | a :: _ =>
      if a.head? = some '~' then expandUser a
      else if isAbs a then a
      else pyJoin st.currentDir a
  let p := normalize (splitSlash newDir) []
  match fsEntry st.fs p with
  | some FEntry.dir =>
    ({ st with currentDir := pathToStr p }, Except.ok (str "", 0))
  | none =>
    (st, Except.ok
      (redMsg (str "cd: " ++ newDir ++ str ": No such file or directory"), 1))
  | some (FEntry.file _ _) =>
    (st, Except.error (str "[Errno 20] Not a directory: " ++ newDir))

/-- Lexicographic comparison of strings by character code, as Python's
`list.sort()` orders strings. -/
def strLE : Str → Str → Bool
  | [], _ => true
  | _ :: _, [] => false
  | a :: as0, b :: bs0 =>
    if a = b then strLE as0 bs0 else decide (a < b)

/-- `_handle_ls`.  Flag scanning, the existence/file checks, hidden-entry
filtering and sorting follow the source; the `-l` metadata columns
(permission string, size, `os.stat` modification time) are abstracted to
the bare entry name, and no spec claim depends on them. -/
def handleLs (st : TermState) (args : List Str) : Str × Nat :=
  let path := args.foldl (fun acc a =>
    if a.head? = some '-' then acc else a) st.currentDir
  let showHidden := args.any (fun a => a.head? = some '-' && a.contains 'a')
  let p := resolveFrom st.currentDir path
  match fsEntry st.fs p with
  | none => (redMsg (str "ls: " ++ path ++ str ": No such file or directory"), 1)
  | some (FEntry.file _ _) => (path, 0)
  | some FEntry.dir =>
    let items0 := listNames st.fs p
    let items1 := if showHidden then items0
      else items0.filter (fun n => decide (n.head? ≠ some '.'))
    let items := items1.mergeSort strLE
    let colored := items.map (fun n =>
      if fsEntry st.fs (p ++ [n]) = some FEntry.dir
      then foreBLU ++ n ++ styleRST else n)
    (List.intercalate (str "  ") colored, 0)

/-- One `os.makedirs(dir_name, exist_ok=True)` call per matched name in
`_handle_mkdir`'s inner loop; an `OSError` is caught by the handler's
generic `except` clause and formatted with the offending name. -/
def mkdirEach : TermState → List Str → TermState × Option (Str × Nat)
  | st, [] => (st, none)
  | st, d :: ds =>
    match makedirs st.fs (resolveFrom st.currentDir d) with
    | (fs2, none) => mkdirEach { st with fs := fs2 } ds
    | (fs2, some errno) =>
      ({ st with fs := fs2 },
        some (redMsg (str "mkdir: " ++ d ++
          (if errno = 17 then str ": [Errno 17] File exists"
           else str ": [Errno 20] Not a directory")), 1))

/-- The per-pattern loop of `_handle_mkdir`: a wildcard pattern is globbed,
but the glob result is then unconditionally discarded in favour of the
literal pattern (`if not matched_dirs or '*' in pattern or '?' in pattern`). -/
def mkdirLoop : TermState → List Str → TermState × (Str × Nat)
  | st, [] => (st, (str "", 0))
  | st, pat :: rest =>
    let matched0 := if hasWildcard pat then globExpand st.fs st.currentDir pat
      else [pat]
    let matched := if matched0.isEmpty ∨ hasWildcard pat then [pat] else matched0
    match mkdirEach st matched with
    | (st2, none) => mkdirLoop st2 rest
    | (st2, some r) => (st2, r)

/-- `_handle_mkdir`. -/
def handleMkdir (st : TermState) (args : List Str) : TermState × (Str × Nat) :=
  if args.isEmpty then (st, (redMsg (str "mkdir: missing operand"), 1))
  else mkdirLoop st args

/-- The removal loop of `_handle_rm`, over the already-expanded target
list: a directory without the recursive flag stops with "is a directory";
a directory with it is removed by `shutil.rmtree`; a file is removed by
`os.remove`; a missing target stops with `FileNotFoundError`'s message.
`os.remove`'s `PermissionError` branch concerns directory write permission,
which is not modelled. -/
def rmLoop : TermState → Bool → List Str → TermState × (Str × Nat)
  | st, _, [] => (st, (str "", 0))
  | st, recursive, f :: rest =>
    let p := resolveFrom st.currentDir f
    match fsEntry st.fs p with
    | some FEntry.dir =>
      if recursive then rmLoop { st with fs := rmtree st.fs p } recursive rest
      else (st, (redMsg (str "rm: " ++ f ++ str ": is a directory (use -r to remove)"), 1))
    | some (FEntry.file _ _) =>
      rmLoop { st with fs := removeEntry st.fs p } recursive rest
    | none =>
      (st, (redMsg (str "rm: " ++ f ++ str ": No such file or directory"), 1))

/-- `_handle_rm`: scan the arguments for `-r`/`-rf`, expand each remaining
argument (a wildcard pattern contributes exactly its glob matches — an
unmatched pattern contributes nothing), fail with "no files matched" when
no targets remain, then run the removal loop. -/
def handleRm (st : TermState) (args : List Str) : TermState × (Str × Nat) :=
  if args.isEmpty then (st, (redMsg (str "rm: missing operand"), 1))
  else
    let recursive := args.any (fun a => a = str "-r" || a = str "-rf")
    let files := args.foldl (fun acc a =>
      if a = str "-r" ∨ a = str "-rf" then acc
      else acc ++ (if hasWildcard a then globExpand st.fs st.currentDir a else [a])) []
    if files.isEmpty then (st, (redMsg (str "rm: no files matched"), 1))
    else rmLoop st recursive files

/-- The per-directory loop of `_handle_rmdir`: `os.rmdir` fails with
`FileNotFoundError` on a missing path and with an `OSError` on a non-empty
directory or a non-directory. -/
def rmdirLoop : TermState → List Str → TermState × (Str × Nat)
  | st, [] => (st, (str "", 0))
  | st, d :: rest =>
    let p := resolveFrom st.currentDir d
    match fsEntry st.fs p with
    | none =>
      (st, (redMsg (str "rmdir: " ++ d ++ str ": No such file or directory"), 1))
    | some (FEntry.file _ _) =>
      (st, (redMsg (str "rmdir: " ++ d ++ str ": [Errno 20] Not a directory"), 1))
    | some FEntry.dir =>
      if (listNames st.fs p).isEmpty then
        rmdirLoop { st with fs := removeEntry st.fs p } rest
      else (st, (redMsg (str "rmdir: " ++ d ++ str ": [Errno 39] Directory not empty"), 1))

/-- `_handle_rmdir`. -/
def handleRmdir (st : TermState) (args : List Str) : TermState × (Str × Nat) :=
  if args.isEmpty then (st, (redMsg (str "rmdir: missing operand"), 1))
  else rmdirLoop st args

end Terminal

namespace Terminal

/-- `shutil.copy2(src, final_dst)` as exercised by `_handle_cp`: read the
source file, then write its content at the destination.  A missing source
raises `FileNotFoundError`, an unreadable one `PermissionError` (both caught
by the handler), a directory source `IsADirectoryError` (uncaught); writing
fails with `FileNotFoundError` when the destination's parent is missing and
with `IsADirectoryError` when the destination is an existing directory. -/
inductive CopyRes where
  | ok (fs : FileSys)
  | srcNotFound
  | srcPermDenied
  | dstNotFound
  | escalate (msg : Str)

/-- One file copy (see `CopyRes`). -/
def copyFile (fs : FileSys) (cwd src dst : Str) : CopyRes :=
  match readFile fs cwd src with
  | ReadRes.notFound => CopyRes.srcNotFound
  | ReadRes.permDenied => CopyRes.srcPermDenied
  | ReadRes.isDirErr => CopyRes.escalate (str "[Errno 21] Is a directory: " ++ src)
  | ReadRes.ok content =>
    let p := resolveFrom cwd dst
    match fsEntry fs p with
    | some FEntry.dir => CopyRes.escalate (str "[Errno 21] Is a directory: " ++ dst)
    | _ =>
      if fsEntry fs p.dropLast = some FEntry.dir then CopyRes.ok (setFile fs p content)
      else CopyRes.dstNotFound

/-- `os.path.basename`: the part after the last slash. -/
def baseName (s : Str) : Str := (splitSlash s).getLastD []

/-- The copy loop of `_handle_cp`: the first `FileNotFoundError` or
`PermissionError` aborts with a message naming the offending source;
`IsADirectoryError` escapes the handler. -/
def cpLoop : TermState → List Str → Str → TermState × Except Str (Str × Nat)
  | st, [], _ => (st, Except.ok (str "", 0))
  | st, src :: rest, dst =>
    let finalDst :=
      if fsEntry st.fs (resolveFrom st.currentDir dst) = some FEntry.dir
      then pyJoin dst (baseName src) else dst
    match copyFile st.fs st.currentDir src finalDst with
    | CopyRes.ok fs2 => cpLoop { st with fs := fs2 } rest dst
    | CopyRes.srcNotFound =>
      (st, Except.ok (redMsg (str "cp: " ++ src ++ str ": No such file or directory"), 1))
    | CopyRes.dstNotFound =>
      (st, Except.ok (redMsg (str "cp: " ++ src ++ str ": No such file or directory"), 1))
    | CopyRes.srcPermDenied =>
      (st, Except.ok (redMsg (str "cp: " ++ src ++ str ": Permission denied"), 1))
    | CopyRes.escalate m => (st, Except.error m)

/-- `_handle_cp`. -/
def handleCp (st : TermState) (args : List Str) :
    TermState × Except Str (Str × Nat) :=
  match args with
  | src :: dst :: _ =>
    if hasWildcard src then
      let matched := globExpand st.fs st.currentDir src
      if matched.isEmpty then
        (st, Except.ok (redMsg (str "cp: " ++ src ++ str ": No files matched"), 1))
      else cpLoop st matched dst
    else cpLoop st [src] dst
  | _ => (st, Except.ok (redMsg (str "cp: missing file operand"), 1))

/-- `shutil.move` of one path in `_handle_mv`'s loop: a directory source has
its whole subtree re-rooted at the destination, a file source is copied and
deleted; a missing source raises `FileNotFoundError`. -/
def moveEntry (fs : FileSys) (cwd src dst : Str) : Option FileSys :=
  let ps := resolveFrom cwd src
  let pd := resolveFrom cwd dst
  match fsEntry fs ps with
  | none => none
  | some (FEntry.file content r) =>
    some ⟨(pd, FEntry.file content r) ::
      (removeEntry fs ps).entries.filter (fun e => decide (e.1 ≠ pd))⟩
  | some FEntry.dir =>
    some ⟨(pd, FEntry.dir) :: fs.entries.filterMap (fun e =>
      if ps.IsPrefix e.1 then
        if e.1 = ps then none else some (pd ++ e.1.drop ps.length, e.2)
      else if e.1 = pd then none else some e)⟩

/-- The move loop of `_handle_mv`. -/
def mvLoop : TermState → List Str → Str → TermState × (Str × Nat)
  | st, [], _ => (st, (str "", 0))
  | st, src :: rest, dst =>
    let finalDst :=
      if fsEntry st.fs (resolveFrom st.currentDir dst) = some FEntry.dir
      then pyJoin dst (baseName src) else dst
    match moveEntry st.fs st.currentDir src finalDst with
    | some fs2 => mvLoop { st with fs := fs2 } rest dst
    | none =>
      (st, (redMsg (str "mv: " ++ src ++ str ": No such file or directory"), 1))

/-- `_handle_mv`. -/
def handleMv (st : TermState) (args : List Str) : TermState × (Str × Nat) :=
  match args with
  | src :: dst :: _ =>
    if hasWildcard src then
      let matched := globExpand st.fs st.currentDir src
      if matched.isEmpty then
        (st, (redMsg (str "mv: " ++ src ++ str ": No files matched"), 1))
      else mvLoop st matched dst
    else mvLoop st [src] dst
  | _ => (st, (redMsg (str "mv: missing file operand"), 1))

/-- The per-file loop of `_handle_cat`: contents are accumulated, but the
first `FileNotFoundError` or `PermissionError` returns immediately,
discarding the accumulated contents and skipping the remaining files;
`IsADirectoryError` escapes the handler. -/
def catLoop (st : TermState) : List Str → List Str → Except Str (Str × Nat)
  | [], acc => Except.ok (List.intercalate (str "\n") acc, 0)
  | f :: rest, acc =>
    match readFile st.fs st.currentDir f with
    | ReadRes.ok content => catLoop st rest (acc ++ [content])
    | ReadRes.notFound =>
      Except.ok (redMsg (str "cat: " ++ f ++ str ": No such file or directory"), 1)
    | ReadRes.permDenied =>
      Except.ok (redMsg (str "cat: " ++ f ++ str ": Permission denied"), 1)
    | ReadRes.isDirErr => Except.error (str "[Errno 21] Is a directory: " ++ f)

/-- `_handle_cat`. -/
def handleCat (st : TermState) (args : List Str) : Except Str (Str × Nat) :=
  if args.isEmpty then Except.ok (redMsg (str "cat: missing operand"), 1)
  else catLoop st args []

/-- `_handle_echo`: join the argument tokens with single spaces. -/
def handleEcho (args : List Str) : Str × Nat :=
  (List.intercalate (str " ") args, 0)

/-- The matching lines of one file in `_handle_grep`, numbered from 1:
`f"{file_path}:{line_num}:{line.rstrip()}"` for each line containing the
pattern as a substring. -/
def grepLines (fname pat : Str) : Nat → List Str → List Str
  | _, [] => []
  | i, l :: ls =>
    (if strInfix pat l then
      [fname ++ str ":" ++ natToStr i ++ str ":" ++ rstrip l]
     else []) ++ grepLines fname pat (i + 1) ls

/-- The per-file loop of `_handle_grep`: a missing or unreadable file
contributes an error line to the collected output and the loop continues;
the final result is always exit code 0.  `IsADirectoryError` escapes the
handler. -/
def grepLoop (st : TermState) (pat : Str) : List Str → List Str → Except Str (Str × Nat)
  | [], acc => Except.ok (List.intercalate (str "\n") acc, 0)
  | f :: rest, acc =>
    match readFile st.fs st.currentDir f with
    | ReadRes.ok content =>
      grepLoop st pat rest (acc ++ grepLines f pat 1 (pyLines content))
    | ReadRes.notFound =>
      grepLoop st pat rest
        (acc ++ [redMsg (str "grep: " ++ f ++ str ": No such file or directory")])
    | ReadRes.permDenied =>
      grepLoop st pat rest (acc ++ [redMsg (str "grep: " ++ f ++ str ": Permission denied")])
    | ReadRes.isDirErr => Except.error (str "[Errno 21] Is a directory: " ++ f)

/-- `_handle_grep`. -/
def handleGrep (st : TermState) (args : List Str) : Except Str (Str × Nat) :=
  match args with
  | [] => Except.ok (redMsg (str "grep: missing pattern"), 1)
  | pat :: files =>
    if files.isEmpty then
      Except.ok (redMsg (str "grep: reading from stdin not implemented"), 1)
    else grepLoop st pat files []

/-- The walk of `_handle_find`: every entry strictly below the given path,
its printed name rebuilt by joining the relative components onto the
user-supplied path string; with `-name`, only entries whose final name
contains the pattern as a substring.  The `os.walk` visiting order is
abstracted to the entry-list order (no claim depends on it). -/
def findGo (st : TermState) (path : Str) (namePat : Option Str) : Str × Nat :=
  let base := resolveFrom st.currentDir path
  let hits := st.fs.entries.filterMap (fun e =>
    if base.IsPrefix e.1 ∧ e.1.length > base.length then
      let name := e.1.getLastD []
      match namePat with
      | some pat => if strInfix pat name then some ((e.1.drop base.length).foldl pyJoin path) else none
      | none => some ((e.1.drop base.length).foldl pyJoin path)
    else none)
  (List.intercalate (str "\n") hits, 0)

/-- `_handle_find`: a second argument other than `-name` is ignored, and
`-name` without a following pattern is an error. -/
def handleFind (st : TermState) (args : List Str) : Str × Nat :=
  match args with
  | [] => (redMsg (str "find: missing path"), 1)
  | path :: rest =>
    match rest with
    | flag :: rest2 =>
      if flag = str "-name" then
        match rest2 with
        | [] => (redMsg (str "find: missing argument to -name"), 1)
        | pat :: _ => findGo st path (some pat)
      else findGo st path none
    | [] => findGo st path none

/-- One `open(file_path, 'a')` in `_handle_touch`: creates an empty file
when missing, leaves an existing file unchanged; a directory target or a
missing parent directory raises, caught by the handler's generic `except`
clause. -/
def touchOne (st : TermState) (f : Str) : TermState × Option (Str × Nat) :=
  let p := resolveFrom st.currentDir f
  match fsEntry st.fs p with
  | some (FEntry.file _ _) => (st, none)
  | some FEntry.dir =>
    (st, some (redMsg (str "touch: " ++ f ++ str ": [Errno 21] Is a directory"), 1))
  | none =>
    if fsEntry st.fs p.dropLast = some FEntry.dir then
      ({ st with fs := setFile st.fs p [] }, none)
    else (st, some (redMsg (str "touch: " ++ f ++ str ": No such file or directory"), 1))

/-- The inner loop of `_handle_touch` over matched names. -/
def touchEach : TermState → List Str → TermState × Option (Str × Nat)
  | st, [] => (st, none)
  | st, f :: rest =>
    match touchOne st f with
    | (st2, none) => touchEach st2 rest
    | (st2, some r) => (st2, some r)

/-- The per-pattern loop of `_handle_touch`: like `_handle_mkdir`, a
wildcard pattern's glob result is unconditionally replaced by the literal
pattern. -/
def touchLoop : TermState → List Str → TermState × (Str × Nat)
  | st, [] => (st, (str "", 0))
  | st, pat :: rest =>
    let matched0 := if hasWildcard pat then globExpand st.fs st.currentDir pat
      else [pat]
    let matched := if matched0.isEmpty ∨ hasWildcard pat then [pat] else matched0
    match touchEach st matched with
    | (st2, none) => touchLoop st2 rest
    | (st2, some r) => (st2, r)

/-- `_handle_touch`. -/
def handleTouch (st : TermState) (args : List Str) : TermState × (Str × Nat) :=
  if args.isEmpty then (st, (redMsg (str "touch: missing operand"), 1))
  else touchLoop st args

/-- Whether `int(s)` succeeds in Python: an optional sign followed by at
least one digit (underscore grouping and surrounding whitespace cannot
occur in a whitespace-split token of interest). -/
def pyIsInt (s : Str) : Bool :=
  let digits := if s.head? = some '-' ∨ s.head? = some '+' then s.tail else s
  !digits.isEmpty && digits.all (fun c => c.isDigit)

/-- The value of `int(s)` when `pyIsInt s` holds. -/
def pyToInt (s : Str) : Int :=
  match s with
  | '-' :: rest => -(Int.ofNat (rest.foldl (fun a c => a * 10 + (c.toNat - 48)) 0))
  | '+' :: rest => Int.ofNat (rest.foldl (fun a c => a * 10 + (c.toNat - 48)) 0)
  | _ => Int.ofNat (s.foldl (fun a c => a * 10 + (c.toNat - 48)) 0)

/-- `_handle_kill`: missing operand and unparseable pid are reported
locally; the outcome of terminating a live process is external
(`Env.killOutcome`). -/
def handleKill (env : Env) (args : List Str) : Str × Nat :=
  match args with
  | [] => (redMsg (str "kill: missing operand"), 1)
  | a :: _ =>
    if pyIsInt a then
      match env.killOutcome (pyToInt a) with
      | KillRes.ok => (str "", 0)
      | KillRes.noSuchProcess => (redMsg (str "kill: " ++ a ++ str ": No such process"), 1)
      | KillRes.accessDenied => (redMsg (str "kill: " ++ a ++ str ": Permission denied"), 1)
    else (redMsg (str "kill: " ++ a ++ str ": invalid process ID"), 1)

/-- Python `history[-20:]`: the most recent `n` entries. -/
def lastN (n : Nat) (l : List Str) : List Str := l.drop (l.length - n)

/-- The display lines of `_handle_history`: `f"{i:>4}  {cmd}"`, numbering
from 1. -/
def histLines : Nat → List Str → List Str
  | _, [] => []
  | i, c :: cs => (rjust 4 (natToStr i) ++ str "  " ++ c) :: histLines (i + 1) cs

/-- `_handle_history`. -/
def handleHistory (st : TermState) : Str × Nat :=
  if st.history.isEmpty then (str "No commands in history", 0)
  else (List.intercalate (str "\n") (histLines 1 (lastN 20 st.history)), 0)

/-- `_handle_help`: static usage text whose AI section depends on AI
availability.  The text itself is abbreviated to a marker (no claim
depends on its content). -/
def handleHelp (env : Env) : Str × Nat :=
  if env.hasAI then (str "help text with AI section", 0)
  else (str "help text without AI section", 0)

end Terminal

namespace Terminal

/-! ## AI command interpretation and dispatch -/

/-- The fixed destructive-verb substring list of `_handle_ai_command`. -/
def destructiveCommands : List Str :=
  [str "rm", str "rmdir", str "mv", str "kill"]

/-- The confirmation-gate condition: some returned command string contains
one of the destructive substrings
(`any(any(dest_cmd in cmd for dest_cmd in destructive_commands) for cmd in commands)`). -/
def isDestructive (cmds : List Str) : Bool :=
  cmds.any (fun c => destructiveCommands.any (fun d => strInfix d c))

/-- Whether the prompt's outcome lets execution proceed: an interrupt
cancels, and an answer proceeds exactly when it lowercases to `y` or
`yes`. -/
def confirmed : ConfirmAns → Bool
  | ConfirmAns.interrupt => false
  | ConfirmAns.answer s => lowerStr s = str "y" || lowerStr s = str "yes"

/-- The cancellation result of the confirmation gate. -/
def cancelledMsg : Str := yelMsg (str "Operation cancelled by user.")

/-- The note appended when a replayed command fails. -/
def failNote (code : Nat) : Str :=
  redMsg (str "Command failed with exit code " ++ natToStr code)

/-- The sequential-replay loop of `_handle_ai_command`, parametrised by the
dispatcher `recur` it re-enters: run each command, collect its output when
non-blank, and stop at the first nonzero exit code, appending a failure
note.  Returns the final state, the collected outputs, the overall exit
code, and the concatenated dispatch traces. -/
def replayCmds (recur : TermState → Str → TermState × (Str × Nat) × List Str) :
    TermState → List Str → TermState × List Str × Nat × List Str
  | st, [] => (st, [], 0, [])
  | st, c :: cs =>
    let res := recur st c
    let outs := if isBlank res.2.1.1 then [] else [res.2.1.1]
    if res.2.1.2 ≠ 0 then
      (res.1, outs ++ [failNote res.2.1.2], res.2.1.2, res.2.2)
    else
      let rest := replayCmds recur res.1 cs
      (rest.1, outs ++ rest.2.1, rest.2.2.1, res.2.2 ++ rest.2.2.2)

/-- `_handle_ai_command`, parametrised by the dispatcher `recur` used for
the sequential replay.  The returned trace lists the built-in names
dispatched by the replay (empty when nothing is executed). -/
def handleAI (recur : TermState → Str → TermState × (Str × Nat) × List Str)
    (env : Env) (st : TermState) (args : List Str) :
    TermState × (Str × Nat) × List Str :=
  if !env.hasAI then
    (st, (redMsg (str "AI functionality not available. Please provide a Gemini API key."), 1), [])
  else if args.isEmpty then
    (st, (yelMsg (str "Usage: ai <natural language command>"), 1), [])
  else
    let query := List.intercalate (str " ") args
    let resp := env.interpret query st.currentDir (listNames st.fs (curPath st.currentDir))
    if !resp.success then
      (st, (redMsg (str "AI Error: " ++ resp.errorMessage), 1), [])
    else if resp.commands.isEmpty then
      (st, (yelMsg (str "AI could not interpret the request: " ++ resp.explanation), 1), [])
    else if isDestructive resp.commands ∧ !confirmed env.confirmAns then
      (st, (cancelledMsg, 0), [])
    else
      let rep := replayCmds recur st resp.commands
      let finalOut :=
        if rep.2.1.isEmpty then foreGRN ++ str "All commands executed successfully!" ++ styleRST
        else List.intercalate (str "\n") rep.2.1
      (rep.1, (finalOut, rep.2.2.1), rep.2.2.2)

/-- The `if/elif` dispatch chain of `execute_command` (lines 219-278 of the
source), over the lower-cased first token `c`, the remaining tokens `args`
and the alias-expanded line `cmd` (needed by the system-command fallback).
`recur` is the dispatcher re-entered by the AI replay; `st1` is the session
state with the raw line already recorded to history.  Besides the state and
the `(output, exit_code)` pair, the embedding returns an instrumentation
trace: the dispatched command name, followed by the names dispatched by any
nested AI replay. -/
def dispatch (env : Env) (recur : TermState → Str → TermState × (Str × Nat) × List Str)
    (st1 : TermState) (cmd c : Str) (args : List Str) :
    TermState × (Str × Nat) × List Str :=
  if c = str "exit" ∨ c = str "quit" then (st1, (str "Goodbye!", 0), [c])
        else if c = str "clear" then (st1, (str "", 0), [c])
        else if c = str "pwd" then (st1, (st1.currentDir, 0), [c])
        else if c = str "cd" then
          match handleCd st1 args with
          | (st2, Except.ok r) => (st2, r, [c])
          | (st2, Except.error e) => (st2, (redMsg (str "Error: " ++ e), 1), [c])
        else if c = str "ls" then (st1, handleLs st1 args, [c])
        else if c = str "mkdir" then
          let r := handleMkdir st1 args
          (r.1, r.2, [c])
        else if c = str "rm" then
          let r := handleRm st1 args
          (r.1, r.2, [c])
        else if c = str "rmdir" then
          let r := handleRmdir st1 args
          (r.1, r.2, [c])
        else if c = str "cp" then
          match handleCp st1 args with
          | (st2, Except.ok r) => (st2, r, [c])
          | (st2, Except.error e) => (st2, (redMsg (str "Error: " ++ e), 1), [c])
        else if c = str "mv" then
          let r := handleMv st1 args
          (r.1, r.2, [c])
        else if c = str "cat" then
          match handleCat st1 args with
          | Except.ok r => (st1, r, [c])
          | Except.error e => (st1, (redMsg (str "Error: " ++ e), 1), [c])
        else if c = str "echo" then (st1, handleEcho args, [c])
        else if c = str "grep" then
          match handleGrep st1 args with
          | Except.ok r => (st1, r, [c])
          | Except.error e => (st1, (redMsg (str "Error: " ++ e), 1), [c])
        else if c = str "find" then (st1, handleFind st1 args, [c])
        else if c = str "ps" ∨ c = str "top" ∨ c = str "df" ∨ c = str "du" ∨
            c = str "free" ∨ c = str "uptime" then
          (st1, sysInfoResult env c args, [c])
        else if c = str "kill" then (st1, handleKill env args, [c])
        else if c = str "whoami" then (st1, (env.userName, 0), [c])
        else if c = str "date" then (st1, (env.dateStr, 0), [c])
        else if c = str "history" then (st1, handleHistory st1, [c])
        else if c = str "help" then (st1, handleHelp env, [c])
        else if c = str "ai" ∨ c = str "smart" then
          let r := handleAI recur env st1 args
          (r.1, r.2.1, c :: r.2.2)
        else if c = str "touch" then
          let r := handleTouch st1 args
          (r.1, r.2, [c])
        else (st1, env.sysExec cmd st1.currentDir, [c])

/-- `execute_command`, with an explicit fuel bound on the recursion through
the AI replay (the source recurses without bound; every theorem below is
proved for all fuel values).  A blank line is a no-op success; otherwise
the raw line is appended to the history, aliases are expanded, the line is
tokenized and handed to `dispatch`.  At fuel 0 the call is a no-op (an
artifact of the fuel embedding, reachable only through nested replays). -/
def executeCommand (env : Env) : Nat → TermState → Str → TermState × (Str × Nat) × List Str
  | 0, st, _ => (st, (str "", 0), [])
  | fuel + 1, st, cmd0 =>
    if isBlank cmd0 then (st, (str "", 0), [])
    else
      let st1 : TermState := { st with history := st.history ++ [cmd0] }
      let cmd := expandAliases cmd0
      match pySplit cmd with
      | [] => (st1, (str "", 0), [])
      | tok :: args => dispatch env (executeCommand env fuel) st1 cmd (lowerStr tok) args

/-- The lower-cased first whitespace-delimited token of a line after alias
expansion: the command name `execute_command` dispatches on. -/
def firstTokL (cmd : Str) : Option Str :=
  (pySplit (expandAliases cmd)).head?.map lowerStr

/-- Well-formedness of a modelled filesystem: every proper prefix of an
entry's path is a directory (always true of a real host filesystem). -/
def fsWFb (fs : FileSys) : Bool :=
  fs.entries.all (fun e =>
    (List.range e.1.length).all (fun i => fsEntry fs (e.1.take i) == some FEntry.dir))

/-- A concrete environment for witnesses and counterexamples: the AI
interpreter refuses every query, the confirmation prompt answers "n", and
the external oracles return fixed values. -/
def testEnv : Env where
  hasAI := true
  interpret := fun _ _ _ =>
    { success := false, commands := [], explanation := str "", errorMessage := str "x" }
  confirmAns := ConfirmAns.answer (str "n")
  sysExec := fun _ _ => (str "sys", 7)
  sysInfo := fun _ _ => Except.ok (str "info")
  dateStr := str "Mon Jan 01 00:00:00 UTC 2026"
  killOutcome := fun _ => KillRes.ok
  userName := str "user"

/-- A variant of `testEnv` whose AI interpreter returns a destructive
command list, for exercising the confirmation gate. -/
def testEnvRm : Env :=
  { testEnv with interpret := fun _ _ _ =>
      { success := true, commands := [str "rm file.txt"],
        explanation := str "remove it", errorMessage := str "" } }

/-- A concrete session state for witnesses and counterexamples: working
directory `/w` containing a subdirectory `sub`, a readable file `b.txt`,
and an unreadable file `locked.txt`. -/
def stW : TermState where
  currentDir := str "/w"
  history := []
  fs := ⟨[([str "w"], FEntry.dir),
          ([str "w", str "sub"], FEntry.dir),
          ([str "w", str "b.txt"], FEntry.file (str "hello\nworld hat\n") true),
          ([str "w", str "locked.txt"], FEntry.file (str "secret") false)]⟩

/-- The command names handled by the `if/elif` chain of `execute_command`
itself (source lines 219-275), excluding the `ai`/`smart` replay entry and
the final system-command fallback. -/
def builtinNames : List Str :=
  [str "exit", str "quit", str "clear", str "pwd", str "cd", str "ls", str "mkdir",
   str "rm", str "rmdir", str "cp", str "mv", str "cat", str "echo", str "grep",
   str "find", str "ps", str "top", str "df", str "du", str "free", str "uptime",
   str "kill", str "whoami", str "date", str "history", str "help", str "touch"]

end Terminal

namespace Terminal

/-! ## Basic dispatch and frame lemmas

No handler mutates `current_dir` except `_handle_cd`, and no handler
mutates `command_history` (the only append is at the top of
`execute_command`). -/

theorem exec_blank (env : Env) (fuel : Nat) (st : TermState) (cmd0 : Str)
    (h : isBlank cmd0 = true) :
    executeCommand env (fuel + 1) st cmd0 = (st, (str "", 0), []) := by
  rw [executeCommand]
  simp [h]

theorem exec_dispatch (env : Env) (fuel : Nat) (st : TermState) (cmd0 tok : Str)
    (args : List Str) (h : isBlank cmd0 = false)
    (hp : pySplit (expandAliases cmd0) = tok :: args) :
    executeCommand env (fuel + 1) st cmd0 =
      dispatch env (executeCommand env fuel)
        { st with history := st.history ++ [cmd0] } (expandAliases cmd0) (lowerStr tok) args := by
  rw [executeCommand]
  simp [h, hp]

theorem handleCd_frame (st st2 : TermState) (r : Except Str (Str × Nat)) (args : List Str)
    (h : handleCd st args = (st2, r)) : st2.history = st.history ∧ st2.fs = st.fs := by
  simp only [handleCd] at h
  split at h <;> cases h <;> simp

theorem mkdirEach_frame (l : List Str) : ∀ (st st2 : TermState) (r : Option (Str × Nat)),
    mkdirEach st l = (st2, r) → st2.currentDir = st.currentDir ∧ st2.history = st.history := by
  induction l with
  | nil => intro st st2 r h; rw [mkdirEach] at h; cases h; simp
  | cons d ds ih =>
    intro st st2 r h
    rw [mkdirEach] at h
    split at h
    · have := ih _ _ _ h; simpa using this
    · cases h; simp

theorem mkdirLoop_frame (l : List Str) : ∀ (st st2 : TermState) (r : Str × Nat),
    mkdirLoop st l = (st2, r) → st2.currentDir = st.currentDir ∧ st2.history = st.history := by
  induction l with
  | nil => intro st st2 r h; rw [mkdirLoop] at h; cases h; simp
  | cons pat rest ih =>
    intro st st2 r h
    rw [mkdirLoop] at h
    split at h
    next st3 heq =>
      have h1 := mkdirEach_frame _ _ _ _ heq
      have h2 := ih _ _ _ h
      exact ⟨h2.1.trans h1.1, h2.2.trans h1.2⟩
    next st3 r3 heq =>
      cases h
      exact mkdirEach_frame _ _ _ _ heq

theorem handleMkdir_frame (st st2 : TermState) (r : Str × Nat) (args : List Str)
    (h : handleMkdir st args = (st2, r)) :
    st2.currentDir = st.currentDir ∧ st2.history = st.history := by
  rw [handleMkdir] at h
  split at h
  · cases h; simp
  · exact mkdirLoop_frame _ _ _ _ h

theorem rmLoop_frame (l : List Str) : ∀ (st st2 : TermState) (recursive : Bool) (r : Str × Nat),
    rmLoop st recursive l = (st2, r) →
      st2.currentDir = st.currentDir ∧ st2.history = st.history := by
  induction l with
  | nil => intro st st2 recursive r h; rw [rmLoop] at h; cases h; simp
  | cons f rest ih =>
    intro st st2 recursive r h
    rw [rmLoop] at h
    split at h
    · split at h
      · have := ih _ _ _ _ h; simpa using this
      · cases h; simp
    · have := ih _ _ _ _ h; simpa using this
    · cases h; simp

theorem handleRm_frame (st st2 : TermState) (r : Str × Nat) (args : List Str)
    (h : handleRm st args = (st2, r)) :
    st2.currentDir = st.currentDir ∧ st2.history = st.history := by
  simp only [handleRm] at h
  split at h
  · cases h; simp
  · split at h
    · cases h; simp
    · exact rmLoop_frame _ _ _ _ _ h

theorem rmdirLoop_frame (l : List Str) : ∀ (st st2 : TermState) (r : Str × Nat),
    rmdirLoop st l = (st2, r) → st2.currentDir = st.currentDir ∧ st2.history = st.history := by
  induction l with
  | nil => intro st st2 r h; rw [rmdirLoop] at h; cases h; simp
  | cons d rest ih =>
    intro st st2 r h
    rw [rmdirLoop] at h
    split at h
    · cases h; simp
    · cases h; simp
    · split at h
      · have := ih _ _ _ h; simpa using this
      · cases h; simp

theorem handleRmdir_frame (st st2 : TermState) (r : Str × Nat) (args : List Str)
    (h : handleRmdir st args = (st2, r)) :
    st2.currentDir = st.currentDir ∧ st2.history = st.history := by
  rw [handleRmdir] at h
  split at h
  · cases h; simp
  · exact rmdirLoop_frame _ _ _ _ h

theorem cpLoop_frame (l : List Str) : ∀ (st st2 : TermState) (dst : Str) (r : Except Str (Str × Nat)),
    cpLoop st l dst = (st2, r) → st2.currentDir = st.currentDir ∧ st2.history = st.history := by
  induction l with
  | nil => intro st st2 dst r h; rw [cpLoop] at h; cases h; simp
  | cons src rest ih =>
    intro st st2 dst r h
    rw [cpLoop] at h
    split at h
    · have := ih _ _ _ _ h; simpa using this
    · cases h; simp
    · cases h; simp
    · cases h; simp
    · cases h; simp

theorem handleCp_frame (st st2 : TermState) (r : Except Str (Str × Nat)) (args : List Str)
    (h : handleCp st args = (st2, r)) :
    st2.currentDir = st.currentDir ∧ st2.history = st.history := by
  match args with
  | [] => simp only [handleCp] at h; cases h; simp
  | [src] => simp only [handleCp] at h; cases h; simp
  | src :: dst :: rest =>
    simp only [handleCp] at h
    split at h
    · split at h
      · cases h; simp
      · exact cpLoop_frame _ _ _ _ _ h
    · exact cpLoop_frame _ _ _ _ _ h

theorem mvLoop_frame (l : List Str) : ∀ (st st2 : TermState) (dst : Str) (r : Str × Nat),
    mvLoop st l dst = (st2, r) → st2.currentDir = st.currentDir ∧ st2.history = st.history := by
  induction l with
  | nil => intro st st2 dst r h; rw [mvLoop] at h; cases h; simp
  | cons src rest ih =>
    intro st st2 dst r h
    rw [mvLoop] at h
    split at h
    · have := ih _ _ _ _ h; simpa using this
    · cases h; simp

theorem handleMv_frame (st st2 : TermState) (r : Str × Nat) (args : List Str)
    (h : handleMv st args = (st2, r)) :
    st2.currentDir = st.currentDir ∧ st2.history = st.history := by
  match args with
  | [] => simp only [handleMv] at h; cases h; simp
  | [src] => simp only [handleMv] at h; cases h; simp
  | src :: dst :: rest =>
    simp only [handleMv] at h
    split at h
    · split at h
      · cases h; simp
      · exact mvLoop_frame _ _ _ _ _ h
    · exact mvLoop_frame _ _ _ _ _ h

theorem touchOne_frame (st st2 : TermState) (f : Str) (r : Option (Str × Nat))
    (h : touchOne st f = (st2, r)) :
    st2.currentDir = st.currentDir ∧ st2.history = st.history := by
  simp only [touchOne] at h
  split at h
  · cases h; simp
  · cases h; simp
  · split at h <;> cases h <;> simp

theorem touchEach_frame (l : List Str) : ∀ (st st2 : TermState) (r : Option (Str × Nat)),
    touchEach st l = (st2, r) → st2.currentDir = st.currentDir ∧ st2.history = st.history := by
  induction l with
  | nil => intro st st2 r h; rw [touchEach] at h; cases h; simp
  | cons f rest ih =>
    intro st st2 r h
    rw [touchEach] at h
    split at h
    next st3 heq =>
      have h1 := touchOne_frame _ _ _ _ heq
      have h2 := ih _ _ _ h
      exact ⟨h2.1.trans h1.1, h2.2.trans h1.2⟩
    next st3 r3 heq =>
      cases h
      exact touchOne_frame _ _ _ _ heq

theorem touchLoop_frame (l : List Str) : ∀ (st st2 : TermState) (r : Str × Nat),
    touchLoop st l = (st2, r) → st2.currentDir = st.currentDir ∧ st2.history = st.history := by
  induction l with
  | nil => intro st st2 r h; rw [touchLoop] at h; cases h; simp
  | cons pat rest ih =>
    intro st st2 r h
    rw [touchLoop] at h
    split at h
    next st3 heq =>
      have h1 := touchEach_frame _ _ _ _ heq
      have h2 := ih _ _ _ h
      exact ⟨h2.1.trans h1.1, h2.2.trans h1.2⟩
    next st3 r3 heq =>
      cases h
      exact touchEach_frame _ _ _ _ heq

theorem handleTouch_frame (st st2 : TermState) (r : Str × Nat) (args : List Str)
    (h : handleTouch st args = (st2, r)) :
    st2.currentDir = st.currentDir ∧ st2.history = st.history := by
  rw [handleTouch] at h
  split at h
  · cases h; simp
  · exact touchLoop_frame _ _ _ _ h

end Terminal

namespace Terminal

/-! ## Frame lemmas for the AI replay and the dispatch chain -/

theorem replayCmds_dir (recur : TermState → Str → TermState × (Str × Nat) × List Str)
    (hrec : ∀ st c, str "cd" ∉ (recur st c).2.2 → (recur st c).1.currentDir = st.currentDir)
    (cmds : List Str) : ∀ (st st2 : TermState) (outs : List Str) (code : Nat) (tr : List Str),
    replayCmds recur st cmds = (st2, outs, code, tr) → str "cd" ∉ tr →
      st2.currentDir = st.currentDir := by
  induction cmds with
  | nil =>
    intro st st2 outs code tr heq h
    rw [replayCmds] at heq
    cases heq
    rfl
  | cons c cs ih =>
    intro st st2 outs code tr heq h
    simp only [replayCmds] at heq
    split at heq
    · cases heq
      exact hrec st c h
    · cases heq
      rw [List.mem_append] at h
      push_neg at h
      have h1 := hrec st c h.1
      have h2 := ih (recur st c).1 _ _ _ _ rfl h.2
      rw [h2, h1]

theorem replayCmds_hist (recur : TermState → Str → TermState × (Str × Nat) × List Str)
    (hrec : ∀ (st : TermState) (c : Str), st.history <+: (recur st c).1.history)
    (cmds : List Str) : ∀ (st st2 : TermState) (outs : List Str) (code : Nat) (tr : List Str),
    replayCmds recur st cmds = (st2, outs, code, tr) → st.history <+: st2.history := by
  induction cmds with
  | nil =>
    intro st st2 outs code tr heq
    rw [replayCmds] at heq
    cases heq
    exact List.prefix_refl _
  | cons c cs ih =>
    intro st st2 outs code tr heq
    simp only [replayCmds] at heq
    split at heq
    · cases heq
      exact hrec st c
    · cases heq
      exact (hrec st c).trans (ih (recur st c).1 _ _ _ _ rfl)

theorem handleAI_dir (recur : TermState → Str → TermState × (Str × Nat) × List Str)
    (hrec : ∀ st c, str "cd" ∉ (recur st c).2.2 → (recur st c).1.currentDir = st.currentDir)
    (env : Env) (st st2 : TermState) (args : List Str) (r : Str × Nat) (tr : List Str)
    (heq : handleAI recur env st args = (st2, r, tr)) (h : str "cd" ∉ tr) :
    st2.currentDir = st.currentDir := by
  simp only [handleAI] at heq
  split at heq
  · cases heq; rfl
  · split at heq
    · cases heq; rfl
    · split at heq
      · cases heq; rfl
      · split at heq
        · cases heq; rfl
        · split at heq
          · cases heq; rfl
          · cases heq
            exact replayCmds_dir recur hrec _ st _ _ _ _ rfl h

theorem handleAI_hist (recur : TermState → Str → TermState × (Str × Nat) × List Str)
    (hrec : ∀ (st : TermState) (c : Str), st.history <+: (recur st c).1.history)
    (env : Env) (st st2 : TermState) (args : List Str) (r : Str × Nat) (tr : List Str)
    (heq : handleAI recur env st args = (st2, r, tr)) :
    st.history <+: st2.history := by
  simp only [handleAI] at heq
  split at heq
  · cases heq; exact List.prefix_refl _
  · split at heq
    · cases heq; exact List.prefix_refl _
    · split at heq
      · cases heq; exact List.prefix_refl _
      · split at heq
        · cases heq; exact List.prefix_refl _
        · split at heq
          · cases heq; exact List.prefix_refl _
          · cases heq
            exact replayCmds_hist recur hrec _ st _ _ _ _ rfl

theorem dispatch_frame (env : Env)
    (recur : TermState → Str → TermState × (Str × Nat) × List Str)
    (hrecd : ∀ st c, str "cd" ∉ (recur st c).2.2 → (recur st c).1.currentDir = st.currentDir)
    (hrech : ∀ (st : TermState) (c : Str), st.history <+: (recur st c).1.history)
    (st1 st2 : TermState) (cmd c : Str) (args : List Str) (r : Str × Nat) (tr : List Str)
    (heq : dispatch env recur st1 cmd c args = (st2, r, tr)) :
    (str "cd" ∉ tr → st2.currentDir = st1.currentDir) ∧
      st1.history <+: st2.history ∧
      (c ≠ str "ai" ∧ c ≠ str "smart" → st2.history = st1.history) := by
  unfold dispatch at heq
  by_cases h1 : c = str "exit" ∨ c = str "quit"
  · rw [if_pos h1] at heq
    cases heq; exact ⟨fun _ => rfl, List.prefix_refl _, fun _ => rfl⟩
  rw [if_neg h1] at heq
  by_cases h2 : c = str "clear"
  · rw [if_pos h2] at heq
    cases heq; exact ⟨fun _ => rfl, List.prefix_refl _, fun _ => rfl⟩
  rw [if_neg h2] at heq
  by_cases h3 : c = str "pwd"
  · rw [if_pos h3] at heq
    cases heq; exact ⟨fun _ => rfl, List.prefix_refl _, fun _ => rfl⟩
  rw [if_neg h3] at heq
  by_cases h4 : c = str "cd"
  · rw [if_pos h4] at heq
    split at heq <;> rename_i hcdeq <;> cases heq <;>
      refine ⟨fun h => ?_, ?_, fun _ => ?_⟩
    · subst h4; simp at h
    · exact (handleCd_frame st1 _ _ args hcdeq).1 ▸ List.prefix_refl _
    · exact (handleCd_frame st1 _ _ args hcdeq).1
    · subst h4; simp at h
    · exact (handleCd_frame st1 _ _ args hcdeq).1 ▸ List.prefix_refl _
    · exact (handleCd_frame st1 _ _ args hcdeq).1
  rw [if_neg h4] at heq
  by_cases h5 : c = str "ls"
  · rw [if_pos h5] at heq
    cases heq; exact ⟨fun _ => rfl, List.prefix_refl _, fun _ => rfl⟩
  rw [if_neg h5] at heq
  by_cases h6 : c = str "mkdir"
  · rw [if_pos h6] at heq
    cases heq
    have hf := handleMkdir_frame st1 _ _ args rfl
    exact ⟨fun _ => hf.1, hf.2 ▸ List.prefix_refl _, fun _ => hf.2⟩
  rw [if_neg h6] at heq
  by_cases h7 : c = str "rm"
  · rw [if_pos h7] at heq
    cases heq
    have hf := handleRm_frame st1 _ _ args rfl
    exact ⟨fun _ => hf.1, hf.2 ▸ List.prefix_refl _, fun _ => hf.2⟩
  rw [if_neg h7] at heq
  by_cases h8 : c = str "rmdir"
  · rw [if_pos h8] at heq
    cases heq
    have hf := handleRmdir_frame st1 _ _ args rfl
    exact ⟨fun _ => hf.1, hf.2 ▸ List.prefix_refl _, fun _ => hf.2⟩
  rw [if_neg h8] at heq
  by_cases h9 : c = str "cp"
  · rw [if_pos h9] at heq
    split at heq <;> rename_i hcpeq <;> cases heq <;>
      have hf := handleCp_frame st1 _ _ args hcpeq <;>
      exact ⟨fun _ => hf.1, hf.2 ▸ List.prefix_refl _, fun _ => hf.2⟩
  rw [if_neg h9] at heq
  by_cases h10 : c = str "mv"
  · rw [if_pos h10] at heq
    cases heq
    have hf := handleMv_frame st1 _ _ args rfl
    exact ⟨fun _ => hf.1, hf.2 ▸ List.prefix_refl _, fun _ => hf.2⟩
  rw [if_neg h10] at heq
  by_cases h11 : c = str "cat"
  · rw [if_pos h11] at heq
    split at heq <;> cases heq <;> exact ⟨fun _ => rfl, List.prefix_refl _, fun _ => rfl⟩
  rw [if_neg h11] at heq
  by_cases h12 : c = str "echo"
  · rw [if_pos h12] at heq
    cases heq; exact ⟨fun _ => rfl, List.prefix_refl _, fun _ => rfl⟩
  rw [if_neg h12] at heq
  by_cases h13 : c = str "grep"
  · rw [if_pos h13] at heq
    split at heq <;> cases heq <;> exact ⟨fun _ => rfl, List.prefix_refl _, fun _ => rfl⟩
  rw [if_neg h13] at heq
  by_cases h14 : c = str "find"
  · rw [if_pos h14] at heq
    cases heq; exact ⟨fun _ => rfl, List.prefix_refl _, fun _ => rfl⟩
  rw [if_neg h14] at heq
  by_cases h15 : c = str "ps" ∨ c = str "top" ∨ c = str "df" ∨ c = str "du" ∨
      c = str "free" ∨ c = str "uptime"
  · rw [if_pos h15] at heq
    cases heq; exact ⟨fun _ => rfl, List.prefix_refl _, fun _ => rfl⟩
  rw [if_neg h15] at heq
  by_cases h16 : c = str "kill"
  · rw [if_pos h16] at heq
    cases heq; exact ⟨fun _ => rfl, List.prefix_refl _, fun _ => rfl⟩
  rw [if_neg h16] at heq
  by_cases h17 : c = str "whoami"
  · rw [if_pos h17] at heq
    cases heq; exact ⟨fun _ => rfl, List.prefix_refl _, fun _ => rfl⟩
  rw [if_neg h17] at heq
  by_cases h17b : c = str "date"
  · rw [if_pos h17b] at heq
    cases heq; exact ⟨fun _ => rfl, List.prefix_refl _, fun _ => rfl⟩
  rw [if_neg h17b] at heq
  by_cases h18 : c = str "history"
  · rw [if_pos h18] at heq
    cases heq; exact ⟨fun _ => rfl, List.prefix_refl _, fun _ => rfl⟩
  rw [if_neg h18] at heq
  by_cases h19 : c = str "help"
  · rw [if_pos h19] at heq
    cases heq; exact ⟨fun _ => rfl, List.prefix_refl _, fun _ => rfl⟩
  rw [if_neg h19] at heq
  by_cases h20 : c = str "ai" ∨ c = str "smart"
  · rw [if_pos h20] at heq
    cases heq
    refine ⟨fun h => ?_, ?_, fun hne => ?_⟩
    · rw [List.mem_cons] at h
      push_neg at h
      exact handleAI_dir recur hrecd env st1 _ args _ _ rfl h.2
    · exact handleAI_hist recur hrech env st1 _ args _ _ rfl
    · rcases h20 with hx | hx
      · exact absurd hx hne.1
      · exact absurd hx hne.2
  rw [if_neg h20] at heq
  by_cases h21 : c = str "touch"
  · rw [if_pos h21] at heq
    cases heq
    have hf := handleTouch_frame st1 _ _ args rfl
    exact ⟨fun _ => hf.1, hf.2 ▸ List.prefix_refl _, fun _ => hf.2⟩
  rw [if_neg h21] at heq
  cases heq; exact ⟨fun _ => rfl, List.prefix_refl _, fun _ => rfl⟩

end Terminal

namespace Terminal

/-! ## Token-level lemmas for alias expansion and command parsing, and
history/current-directory invariants of the dispatcher -/

theorem exec_master (env : Env) : ∀ (fuel : Nat) (st st2 : TermState) (cmd : Str)
    (r : Str × Nat) (tr : List Str),
    executeCommand env fuel st cmd = (st2, r, tr) →
    (str "cd" ∉ tr → st2.currentDir = st.currentDir) ∧ st.history <+: st2.history := by
  intro fuel
  induction fuel with
  | zero =>
    intro st st2 cmd r tr heq
    rw [executeCommand] at heq
    cases heq
    exact ⟨fun _ => rfl, List.prefix_refl _⟩
  | succ n ih =>
    intro st st2 cmd r tr heq
    rw [executeCommand] at heq
    split at heq
    · cases heq
      exact ⟨fun _ => rfl, List.prefix_refl _⟩
    · dsimp only at heq
      split at heq
      · cases heq
        exact ⟨fun _ => rfl, List.prefix_append _ _⟩
      · have hd := dispatch_frame env (executeCommand env n)
          (fun st c h => (ih st _ c _ _ rfl).1 h)
          (fun st c => (ih st _ c _ _ rfl).2)
          _ _ _ _ _ _ _ heq
        refine ⟨hd.1, ?_⟩
        exact (List.prefix_append _ _).trans hd.2.1

/-! token lemmas -/

theorem splitAux_nonws (p : Str) (hp : ∀ c ∈ p, isWS c = false) :
    ∀ acc : Str, splitAux p acc =
      if (acc.reverse ++ p).isEmpty then [] else [acc.reverse ++ p] := by
  induction p with
  | nil => intro acc; cases acc <;> simp [splitAux]
  | cons c r ih =>
    intro acc
    have hc : isWS c = false := hp c (List.mem_cons_self c r)
    rw [splitAux]
    rw [hc]
    simp only [Bool.false_eq_true, if_false]
    rw [ih (fun x hx => hp x (List.mem_cons_of_mem c hx)) (c :: acc)]
    simp

theorem splitAux_ws_prefix (ws : Str) (hws : ∀ c ∈ ws, isWS c = true) (s : Str) :
    splitAux (ws ++ s) [] = splitAux s [] := by
  induction ws with
  | nil => rfl
  | cons w r ih =>
    have hw : isWS w = true := hws w (List.mem_cons_self w r)
    rw [List.cons_append, splitAux, hw]
    simp only [List.isEmpty_nil, if_true, reduceIte]
    exact ih (fun x hx => hws x (List.mem_cons_of_mem w hx)) 

theorem splitAux_token (tok : Str) (htok : ∀ c ∈ tok, isWS c = false) (rest : Str)
    (hrest : rest = [] ∨ ∃ w r, rest = w :: r ∧ isWS w = true) :
    ∀ acc : Str, tok ≠ [] ∨ acc ≠ [] →
      splitAux (tok ++ rest) acc = (acc.reverse ++ tok) :: splitAux rest [] := by
  induction tok with
  | nil =>
    intro acc hne
    have hane : acc ≠ [] := hne.resolve_left (fun h => h rfl)
    rcases hrest with h | ⟨w, r, hr, hw⟩
    · subst h
      simp [splitAux, hane]
    · subst hr
      rw [List.nil_append, splitAux, hw]
      simp [splitAux, hane, hw]
  | cons c ctok ih =>
    intro acc _
    have hc : isWS c = false := htok c (List.mem_cons_self c ctok)
    rw [List.cons_append, splitAux, hc]
    simp only [Bool.false_eq_true, if_false]
    rw [ih (fun x hx => htok x (List.mem_cons_of_mem c hx)) (c :: acc) (Or.inr (by simp))]
    simp

theorem pySplit_token (tok rest : Str) (htok : ∀ c ∈ tok, isWS c = false)
    (htne : tok ≠ [])
    (hrest : rest = [] ∨ ∃ w r, rest = w :: r ∧ isWS w = true) :
    pySplit (tok ++ rest) = tok :: splitAux rest [] := by
  have := splitAux_token tok htok rest hrest [] (Or.inl htne)
  simpa [pySplit] using this

theorem pySplit_single (tok : Str) (htok : ∀ c ∈ tok, isWS c = false) (htne : tok ≠ []) :
    pySplit tok = [tok] := by
  have := splitAux_nonws tok htok []
  rw [pySplit, this]
  simp [htne]

theorem pySplit_two (t p : Str) (ht : ∀ c ∈ t, isWS c = false) (htne : t ≠ [])
    (hp : ∀ c ∈ p, isWS c = false) (hpne : p ≠ []) :
    pySplit (t ++ ' ' :: p) = [t, p] := by
  rw [pySplit_token t (' ' :: p) ht htne (Or.inr ⟨' ', p, rfl, by simp [isWS]⟩)]
  rw [splitAux, show isWS ' ' = true by simp [isWS]]
  simp only [List.isEmpty_nil, reduceIte]
  have := splitAux_nonws p hp []
  rw [this]
  simp [hpne]

theorem replaceFirst_head (tok rest v : Str) (h : tok ≠ []) :
    replaceFirst (tok ++ rest) tok v = v ++ rest := by
  match tok, h with
  | c :: ctok, _ =>
    rw [List.cons_append, replaceFirst]
    rw [if_pos]
    · rw [← List.cons_append, List.drop_left]
    · rw [← List.cons_append, List.isPrefixOf_iff_prefix]
      exact List.prefix_append _ _

theorem replaceFirst_ws (ws : Str) (hws : ∀ c ∈ ws, isWS c = true) (t0 : Char)
    (ht0 : isWS t0 = false) (t rest v : Str) :
    replaceFirst (ws ++ (t0 :: t) ++ rest) (t0 :: t) v = ws ++ v ++ rest := by
  induction ws with
  | nil =>
    simp only [List.nil_append]
    exact replaceFirst_head (t0 :: t) rest v (by simp)
  | cons w wr ih =>
    have hw : isWS w = true := hws w (List.mem_cons_self w wr)
    have hne : t0 ≠ w := fun hcon => by
      rw [hcon, hw] at ht0
      exact Bool.noConfusion ht0
    have hstep : (w :: wr) ++ (t0 :: t) ++ rest = w :: (wr ++ (t0 :: t) ++ rest) := by simp
    rw [hstep, replaceFirst]
    rw [if_neg (by simp [List.isPrefixOf, hne])]
    rw [ih (fun x hx => hws x (List.mem_cons_of_mem w hx))]
    simp

theorem expandAliases_split (ws tok rest : Str)
    (hws : ∀ c ∈ ws, isWS c = true) (htok : ∀ c ∈ tok, isWS c = false)
    (htne : tok ≠ [])
    (hrest : rest = [] ∨ ∃ w r, rest = w :: r ∧ isWS w = true) :
    pySplit (ws ++ (tok ++ rest)) = tok :: splitAux rest [] := by
  rw [show ws ++ (tok ++ rest) = ws ++ (tok ++ rest) from rfl]
  rw [pySplit, splitAux_ws_prefix ws hws (tok ++ rest)]
  exact pySplit_token tok rest htok htne hrest

theorem expandAliases_char (ws tok rest : Str)
    (hws : ∀ c ∈ ws, isWS c = true) (htok : ∀ c ∈ tok, isWS c = false)
    (htne : tok ≠ [])
    (hrest : rest = [] ∨ ∃ w r, rest = w :: r ∧ isWS w = true) :
    (∀ v, lookupAlias tok = some v →
      expandAliases (ws ++ (tok ++ rest)) = ws ++ (v ++ rest)) ∧
    (lookupAlias tok = none →
      expandAliases (ws ++ (tok ++ rest)) = ws ++ (tok ++ rest)) := by
  have hsplit := expandAliases_split ws tok rest hws htok htne hrest
  constructor
  · intro v hv
    unfold expandAliases
    rw [hsplit]
    dsimp only
    rw [hv]
    match tok, htne with
    | t0 :: t, _ =>
      have ht0 : isWS t0 = false := htok t0 (List.mem_cons_self t0 t)
      have := replaceFirst_ws ws hws t0 ht0 t rest v
      rw [List.append_assoc, List.append_assoc] at this
      exact this
  · intro hv
    unfold expandAliases
    rw [hsplit]
    dsimp only
    rw [hv]

theorem exec_hist_exact (env : Env) (fuel : Nat) (st : TermState) (cmd : Str)
    (hb : isBlank cmd = false)
    (hai : firstTokL cmd ≠ some (str "ai"))
    (hsm : firstTokL cmd ≠ some (str "smart")) :
    (executeCommand env (fuel + 1) st cmd).1.history = st.history ++ [cmd] := by
  cases hp : pySplit (expandAliases cmd) with
  | nil =>
    rw [executeCommand]
    simp [hb, hp]
  | cons tok args =>
    rw [exec_dispatch env fuel st cmd tok args hb hp]
    have hd := dispatch_frame env (executeCommand env fuel)
      (fun st c h => (exec_master env fuel st _ c _ _ rfl).1 h)
      (fun st c => (exec_master env fuel st _ c _ _ rfl).2)
      { st with history := st.history ++ [cmd] } _ (expandAliases cmd) (lowerStr tok) args _ _ rfl
    refine (hd.2.2 ⟨?_, ?_⟩)
    · intro hcon
      exact hai (by rw [firstTokL, hp]; simp [hcon])
    · intro hcon
      exact hsm (by rw [firstTokL, hp]; simp [hcon])

theorem exec_hist_prefix (env : Env) (fuel : Nat) (st : TermState) (cmd : Str)
    (hb : isBlank cmd = false) :
    st.history ++ [cmd] <+: (executeCommand env (fuel + 1) st cmd).1.history := by
  cases hp : pySplit (expandAliases cmd) with
  | nil =>
    rw [executeCommand]
    simp [hb, hp]
  | cons tok args =>
    rw [exec_dispatch env fuel st cmd tok args hb hp]
    have hd := dispatch_frame env (executeCommand env fuel)
      (fun st c h => (exec_master env fuel st _ c _ _ rfl).1 h)
      (fun st c => (exec_master env fuel st _ c _ _ rfl).2)
      { st with history := st.history ++ [cmd] } _ (expandAliases cmd) (lowerStr tok) args _ _ rfl
    exact hd.2.1

end Terminal

namespace Terminal

/-! ## Branch equations of the dispatch chain -/

theorem expandAliases_none (tok rest : Str) (htok : ∀ c ∈ tok, isWS c = false)
    (htne : tok ≠ [])
    (hrest : rest = [] ∨ ∃ w r, rest = w :: r ∧ isWS w = true)
    (hlook : lookupAlias tok = none) :
    expandAliases (tok ++ rest) = tok ++ rest := by
  unfold expandAliases
  rw [pySplit_token tok rest htok htne hrest]
  dsimp only
  rw [hlook]

theorem isBlank_append_false (a b : Str) (h : isBlank a = false) :
    isBlank (a ++ b) = false := by
  rw [isBlank, List.all_append]
  rw [isBlank] at h
  simp [h]

theorem dispatch_pwd (env : Env) (recur : TermState → Str → TermState × (Str × Nat) × List Str)
    (st1 : TermState) (cmd : Str) (args : List Str) :
    dispatch env recur st1 cmd (str "pwd") args = (st1, (st1.currentDir, 0), [str "pwd"]) := by
  unfold dispatch
  rw [if_neg (by decide), if_neg (by decide), if_pos rfl]

theorem dispatch_cd (env : Env) (recur : TermState → Str → TermState × (Str × Nat) × List Str)
    (st1 : TermState) (cmd : Str) (args : List Str) :
    dispatch env recur st1 cmd (str "cd") args =
      (match handleCd st1 args with
       | (st2, Except.ok r) => (st2, r, [str "cd"])
       | (st2, Except.error e) => (st2, (redMsg (str "Error: " ++ e), 1), [str "cd"])) := by
  unfold dispatch
  rw [if_neg (by decide), if_neg (by decide), if_neg (by decide), if_pos rfl]
  try rfl

theorem dispatch_mkdir (env : Env) (recur : TermState → Str → TermState × (Str × Nat) × List Str)
    (st1 : TermState) (cmd : Str) (args : List Str) :
    dispatch env recur st1 cmd (str "mkdir") args =
      ((handleMkdir st1 args).1, (handleMkdir st1 args).2, [str "mkdir"]) := by
  unfold dispatch
  rw [if_neg (by decide), if_neg (by decide), if_neg (by decide), if_neg (by decide),
    if_neg (by decide), if_pos rfl]

theorem dispatch_rm (env : Env) (recur : TermState → Str → TermState × (Str × Nat) × List Str)
    (st1 : TermState) (cmd : Str) (args : List Str) :
    dispatch env recur st1 cmd (str "rm") args =
      ((handleRm st1 args).1, (handleRm st1 args).2, [str "rm"]) := by
  unfold dispatch
  rw [if_neg (by decide), if_neg (by decide), if_neg (by decide), if_neg (by decide),
    if_neg (by decide), if_neg (by decide), if_pos rfl]

theorem dispatch_rmdir (env : Env) (recur : TermState → Str → TermState × (Str × Nat) × List Str)
    (st1 : TermState) (cmd : Str) (args : List Str) :
    dispatch env recur st1 cmd (str "rmdir") args =
      ((handleRmdir st1 args).1, (handleRmdir st1 args).2, [str "rmdir"]) := by
  unfold dispatch
  rw [if_neg (by decide), if_neg (by decide), if_neg (by decide), if_neg (by decide),
    if_neg (by decide), if_neg (by decide), if_neg (by decide), if_pos rfl]

theorem dispatch_cp (env : Env) (recur : TermState → Str → TermState × (Str × Nat) × List Str)
    (st1 : TermState) (cmd : Str) (args : List Str) :
    dispatch env recur st1 cmd (str "cp") args =
      (match handleCp st1 args with
       | (st2, Except.ok r) => (st2, r, [str "cp"])
       | (st2, Except.error e) => (st2, (redMsg (str "Error: " ++ e), 1), [str "cp"])) := by
  unfold dispatch
  rw [if_neg (by decide), if_neg (by decide), if_neg (by decide), if_neg (by decide),
    if_neg (by decide), if_neg (by decide), if_neg (by decide), if_neg (by decide),
    if_pos rfl]
  try rfl

theorem dispatch_mv (env : Env) (recur : TermState → Str → TermState × (Str × Nat) × List Str)
    (st1 : TermState) (cmd : Str) (args : List Str) :
    dispatch env recur st1 cmd (str "mv") args =
      ((handleMv st1 args).1, (handleMv st1 args).2, [str "mv"]) := by
  unfold dispatch
  rw [if_neg (by decide), if_neg (by decide), if_neg (by decide), if_neg (by decide),
    if_neg (by decide), if_neg (by decide), if_neg (by decide), if_neg (by decide),
    if_neg (by decide), if_pos rfl]

theorem dispatch_cat (env : Env) (recur : TermState → Str → TermState × (Str × Nat) × List Str)
    (st1 : TermState) (cmd : Str) (args : List Str) :
    dispatch env recur st1 cmd (str "cat") args =
      (match handleCat st1 args with
       | Except.ok r => (st1, r, [str "cat"])
       | Except.error e => (st1, (redMsg (str "Error: " ++ e), 1), [str "cat"])) := by
  unfold dispatch
  rw [if_neg (by decide), if_neg (by decide), if_neg (by decide), if_neg (by decide),
    if_neg (by decide), if_neg (by decide), if_neg (by decide), if_neg (by decide),
    if_neg (by decide), if_neg (by decide), if_pos rfl]
  try rfl

theorem dispatch_grep (env : Env) (recur : TermState → Str → TermState × (Str × Nat) × List Str)
    (st1 : TermState) (cmd : Str) (args : List Str) :
    dispatch env recur st1 cmd (str "grep") args =
      (match handleGrep st1 args with
       | Except.ok r => (st1, r, [str "grep"])
       | Except.error e => (st1, (redMsg (str "Error: " ++ e), 1), [str "grep"])) := by
  unfold dispatch
  rw [if_neg (by decide), if_neg (by decide), if_neg (by decide), if_neg (by decide),
    if_neg (by decide), if_neg (by decide), if_neg (by decide), if_neg (by decide),
    if_neg (by decide), if_neg (by decide), if_neg (by decide), if_neg (by decide),
    if_pos rfl]
  try rfl

theorem dispatch_find (env : Env) (recur : TermState → Str → TermState × (Str × Nat) × List Str)
    (st1 : TermState) (cmd : Str) (args : List Str) :
    dispatch env recur st1 cmd (str "find") args =
      (st1, handleFind st1 args, [str "find"]) := by
  unfold dispatch
  rw [if_neg (by decide), if_neg (by decide), if_neg (by decide), if_neg (by decide),
    if_neg (by decide), if_neg (by decide), if_neg (by decide), if_neg (by decide),
    if_neg (by decide), if_neg (by decide), if_neg (by decide), if_neg (by decide),
    if_neg (by decide), if_pos rfl]

theorem dispatch_kill (env : Env) (recur : TermState → Str → TermState × (Str × Nat) × List Str)
    (st1 : TermState) (cmd : Str) (args : List Str) :
    dispatch env recur st1 cmd (str "kill") args =
      (st1, handleKill env args, [str "kill"]) := by
  unfold dispatch
  rw [if_neg (by decide), if_neg (by decide), if_neg (by decide), if_neg (by decide),
    if_neg (by decide), if_neg (by decide), if_neg (by decide), if_neg (by decide),
    if_neg (by decide), if_neg (by decide), if_neg (by decide), if_neg (by decide),
    if_neg (by decide), if_neg (by decide), if_neg (by decide), if_pos rfl]

theorem dispatch_history (env : Env) (recur : TermState → Str → TermState × (Str × Nat) × List Str)
    (st1 : TermState) (cmd : Str) (args : List Str) :
    dispatch env recur st1 cmd (str "history") args =
      (st1, handleHistory st1, [str "history"]) := by
  unfold dispatch
  rw [if_neg (by decide), if_neg (by decide), if_neg (by decide), if_neg (by decide),
    if_neg (by decide), if_neg (by decide), if_neg (by decide), if_neg (by decide),
    if_neg (by decide), if_neg (by decide), if_neg (by decide), if_neg (by decide),
    if_neg (by decide), if_neg (by decide), if_neg (by decide), if_neg (by decide),
    if_neg (by decide), if_neg (by decide), if_pos rfl]

theorem dispatch_touch (env : Env) (recur : TermState → Str → TermState × (Str × Nat) × List Str)
    (st1 : TermState) (cmd : Str) (args : List Str) :
    dispatch env recur st1 cmd (str "touch") args =
      ((handleTouch st1 args).1, (handleTouch st1 args).2, [str "touch"]) := by
  unfold dispatch
  rw [if_neg (by decide), if_neg (by decide), if_neg (by decide), if_neg (by decide),
    if_neg (by decide), if_neg (by decide), if_neg (by decide), if_neg (by decide),
    if_neg (by decide), if_neg (by decide), if_neg (by decide), if_neg (by decide),
    if_neg (by decide), if_neg (by decide), if_neg (by decide), if_neg (by decide),
    if_neg (by decide), if_neg (by decide), if_neg (by decide), if_neg (by decide),
    if_neg (by decide), if_pos rfl]

/-! ## Exit-code discipline of the built-ins

Every handler returns exit code 0 on success or exit code 1 with a
non-empty diagnostic; the lemmas below establish this per handler and then
uniformly over the dispatch chain. -/

theorem redMsg_ne (m : Str) : redMsg m ≠ [] := by
  simp [redMsg, foreRED, str]

theorem yelMsg_ne (m : Str) : yelMsg m ≠ [] := by
  simp [yelMsg, foreYEL, str]

theorem handleCd_code (st st2 : TermState) (args : List Str) (r : Str × Nat)
    (h : handleCd st args = (st2, Except.ok r)) :
    r.2 = 0 ∨ (r.2 = 1 ∧ r.1 ≠ []) := by
  simp only [handleCd] at h
  split at h
  · cases h; exact Or.inl rfl
  · cases h; exact Or.inr ⟨rfl, redMsg_ne _⟩
  · simp at h

theorem handleLs_code (st : TermState) (args : List Str) :
    (handleLs st args).2 = 0 ∨ ((handleLs st args).2 = 1 ∧ (handleLs st args).1 ≠ []) := by
  simp only [handleLs]
  split
  · exact Or.inr ⟨rfl, redMsg_ne _⟩
  · exact Or.inl rfl
  · exact Or.inl rfl

theorem mkdirEach_err (l : List Str) : ∀ (st st2 : TermState) (r : Str × Nat),
    mkdirEach st l = (st2, some r) → r.2 = 1 ∧ r.1 ≠ [] := by
  induction l with
  | nil =>
    intro st st2 r h
    rw [mkdirEach] at h
    simp at h
  | cons d ds ih =>
    intro st st2 r h
    rw [mkdirEach] at h
    split at h
    · exact ih _ _ _ h
    · cases h
      exact ⟨rfl, redMsg_ne _⟩

theorem mkdirLoop_code (l : List Str) : ∀ (st st2 : TermState) (r : Str × Nat),
    mkdirLoop st l = (st2, r) → r.2 = 0 ∨ (r.2 = 1 ∧ r.1 ≠ []) := by
  induction l with
  | nil =>
    intro st st2 r h
    rw [mkdirLoop] at h
    cases h
    exact Or.inl rfl
  | cons pat rest ih =>
    intro st st2 r h
    rw [mkdirLoop] at h
    split at h
    · exact ih _ _ _ h
    next st3 r3 heq =>
      cases h
      exact Or.inr (mkdirEach_err _ _ _ _ heq)

theorem handleMkdir_code (st : TermState) (args : List Str) :
    (handleMkdir st args).2.2 = 0 ∨
      ((handleMkdir st args).2.2 = 1 ∧ (handleMkdir st args).2.1 ≠ []) := by
  rw [handleMkdir]
  split
  · exact Or.inr ⟨rfl, redMsg_ne _⟩
  · exact mkdirLoop_code args st _ _ rfl

theorem rmLoop_code (l : List Str) : ∀ (st st2 : TermState) (recursive : Bool) (r : Str × Nat),
    rmLoop st recursive l = (st2, r) → r.2 = 0 ∨ (r.2 = 1 ∧ r.1 ≠ []) := by
  induction l with
  | nil =>
    intro st st2 recursive r h
    rw [rmLoop] at h
    cases h
    exact Or.inl rfl
  | cons f rest ih =>
    intro st st2 recursive r h
    rw [rmLoop] at h
    split at h
    · split at h
      · exact ih _ _ _ _ h
      · cases h; exact Or.inr ⟨rfl, redMsg_ne _⟩
    · exact ih _ _ _ _ h
    · cases h; exact Or.inr ⟨rfl, redMsg_ne _⟩

theorem handleRm_code (st : TermState) (args : List Str) :
    (handleRm st args).2.2 = 0 ∨
      ((handleRm st args).2.2 = 1 ∧ (handleRm st args).2.1 ≠ []) := by
  simp only [handleRm]
  split
  · exact Or.inr ⟨rfl, redMsg_ne _⟩
  · split
    · exact Or.inr ⟨rfl, redMsg_ne _⟩
    · exact rmLoop_code _ st _ _ _ rfl

theorem rmdirLoop_code (l : List Str) : ∀ (st st2 : TermState) (r : Str × Nat),
    rmdirLoop st l = (st2, r) → r.2 = 0 ∨ (r.2 = 1 ∧ r.1 ≠ []) := by
  induction l with
  | nil =>
    intro st st2 r h
    rw [rmdirLoop] at h
    cases h
    exact Or.inl rfl
  | cons d rest ih =>
    intro st st2 r h
    rw [rmdirLoop] at h
    split at h
    · cases h; exact Or.inr ⟨rfl, redMsg_ne _⟩
    · cases h; exact Or.inr ⟨rfl, redMsg_ne _⟩
    · split at h
      · exact ih _ _ _ h
      · cases h; exact Or.inr ⟨rfl, redMsg_ne _⟩

theorem handleRmdir_code (st : TermState) (args : List Str) :
    (handleRmdir st args).2.2 = 0 ∨
      ((handleRmdir st args).2.2 = 1 ∧ (handleRmdir st args).2.1 ≠ []) := by
  rw [handleRmdir]
  split
  · exact Or.inr ⟨rfl, redMsg_ne _⟩
  · exact rmdirLoop_code args st _ _ rfl

theorem cpLoop_code (l : List Str) : ∀ (st st2 : TermState) (dst : Str) (r : Str × Nat),
    cpLoop st l dst = (st2, Except.ok r) → r.2 = 0 ∨ (r.2 = 1 ∧ r.1 ≠ []) := by
  induction l with
  | nil =>
    intro st st2 dst r h
    rw [cpLoop] at h
    cases h
    exact Or.inl rfl
  | cons src rest ih =>
    intro st st2 dst r h
    rw [cpLoop] at h
    split at h
    · exact ih _ _ _ _ h
    · cases h; exact Or.inr ⟨rfl, redMsg_ne _⟩
    · cases h; exact Or.inr ⟨rfl, redMsg_ne _⟩
    · cases h; exact Or.inr ⟨rfl, redMsg_ne _⟩
    · simp at h

theorem handleCp_code (st st2 : TermState) (args : List Str) (r : Str × Nat)
    (h : handleCp st args = (st2, Except.ok r)) :
    r.2 = 0 ∨ (r.2 = 1 ∧ r.1 ≠ []) := by
  match args with
  | [] =>
    simp only [handleCp] at h
    cases h
    exact Or.inr ⟨rfl, redMsg_ne _⟩
  | [src] =>
    simp only [handleCp] at h
    cases h
    exact Or.inr ⟨rfl, redMsg_ne _⟩
  | src :: dst :: rest =>
    simp only [handleCp] at h
    split at h
    · split at h
      · cases h; exact Or.inr ⟨rfl, redMsg_ne _⟩
      · exact cpLoop_code _ st _ _ _ h
    · exact cpLoop_code _ st _ _ _ h

theorem mvLoop_code (l : List Str) : ∀ (st st2 : TermState) (dst : Str) (r : Str × Nat),
    mvLoop st l dst = (st2, r) → r.2 = 0 ∨ (r.2 = 1 ∧ r.1 ≠ []) := by
  induction l with
  | nil =>
    intro st st2 dst r h
    rw [mvLoop] at h
    cases h
    exact Or.inl rfl
  | cons src rest ih =>
    intro st st2 dst r h
    rw [mvLoop] at h
    split at h
    · exact ih _ _ _ _ h
    · cases h; exact Or.inr ⟨rfl, redMsg_ne _⟩

theorem handleMv_code (st : TermState) (args : List Str) :
    (handleMv st args).2.2 = 0 ∨
      ((handleMv st args).2.2 = 1 ∧ (handleMv st args).2.1 ≠ []) := by
  match args with
  | [] => exact Or.inr ⟨rfl, redMsg_ne _⟩
  | [src] => exact Or.inr ⟨rfl, redMsg_ne _⟩
  | src :: dst :: rest =>
    simp only [handleMv]
    split
    · split
      · exact Or.inr ⟨rfl, redMsg_ne _⟩
      · exact mvLoop_code _ st _ _ _ rfl
    · exact mvLoop_code _ st _ _ _ rfl

theorem catLoop_code (st : TermState) (l acc : List Str) (r : Str × Nat) :
    catLoop st l acc = Except.ok r → r.2 = 0 ∨ (r.2 = 1 ∧ r.1 ≠ []) := by
  induction l generalizing acc with
  | nil =>
    intro h
    rw [catLoop] at h
    cases h
    exact Or.inl rfl
  | cons f rest ih =>
    intro h
    rw [catLoop] at h
    split at h
    · exact ih _ h
    · cases h; exact Or.inr ⟨rfl, redMsg_ne _⟩
    · cases h; exact Or.inr ⟨rfl, redMsg_ne _⟩
    · simp at h

theorem handleCat_code (st : TermState) (args : List Str) (r : Str × Nat)
    (h : handleCat st args = Except.ok r) :
    r.2 = 0 ∨ (r.2 = 1 ∧ r.1 ≠ []) := by
  rw [handleCat] at h
  split at h
  · cases h; exact Or.inr ⟨rfl, redMsg_ne _⟩
  · exact catLoop_code st args [] r h

theorem grepLoop_zero (st : TermState) (pat : Str) (l : List Str) :
    ∀ (acc : List Str) (r : Str × Nat), grepLoop st pat l acc = Except.ok r → r.2 = 0 := by
  induction l with
  | nil =>
    intro acc r h
    rw [grepLoop] at h
    cases h
    rfl
  | cons f rest ih =>
    intro acc r h
    rw [grepLoop] at h
    split at h
    · exact ih _ _ h
    · exact ih _ _ h
    · exact ih _ _ h
    · simp at h

theorem handleGrep_code (st : TermState) (args : List Str) (r : Str × Nat)
    (h : handleGrep st args = Except.ok r) :
    r.2 = 0 ∨ (r.2 = 1 ∧ r.1 ≠ []) := by
  match args with
  | [] =>
    simp only [handleGrep] at h
    cases h
    exact Or.inr ⟨rfl, redMsg_ne _⟩
  | pat :: files =>
    simp only [handleGrep] at h
    split at h
    · cases h; exact Or.inr ⟨rfl, redMsg_ne _⟩
    · exact Or.inl (grepLoop_zero st pat files [] r h)

theorem handleFind_code (st : TermState) (args : List Str) :
    (handleFind st args).2 = 0 ∨ ((handleFind st args).2 = 1 ∧ (handleFind st args).1 ≠ []) := by
  match args with
  | [] => exact Or.inr ⟨rfl, redMsg_ne _⟩
  | [path] => exact Or.inl rfl
  | path :: flag :: rest2 =>
    simp only [handleFind]
    split
    · match rest2 with
      | [] => exact Or.inr ⟨rfl, redMsg_ne _⟩
      | pat :: more => exact Or.inl rfl
    · exact Or.inl rfl

theorem handleKill_code (env : Env) (args : List Str) :
    (handleKill env args).2 = 0 ∨
      ((handleKill env args).2 = 1 ∧ (handleKill env args).1 ≠ []) := by
  match args with
  | [] => exact Or.inr ⟨rfl, redMsg_ne _⟩
  | a :: rest =>
    simp only [handleKill]
    split
    · split
      · exact Or.inl rfl
      · exact Or.inr ⟨rfl, redMsg_ne _⟩
      · exact Or.inr ⟨rfl, redMsg_ne _⟩
    · exact Or.inr ⟨rfl, redMsg_ne _⟩

theorem touchOne_err (st st2 : TermState) (f : Str) (r : Str × Nat)
    (h : touchOne st f = (st2, some r)) : r.2 = 1 ∧ r.1 ≠ [] := by
  simp only [touchOne] at h
  split at h
  · simp at h
  · cases h; exact ⟨rfl, redMsg_ne _⟩
  · split at h
    · simp at h
    · cases h; exact ⟨rfl, redMsg_ne _⟩

theorem touchEach_err (l : List Str) : ∀ (st st2 : TermState) (r : Str × Nat),
    touchEach st l = (st2, some r) → r.2 = 1 ∧ r.1 ≠ [] := by
  induction l with
  | nil =>
    intro st st2 r h
    rw [touchEach] at h
    simp at h
  | cons f rest ih =>
    intro st st2 r h
    rw [touchEach] at h
    split at h
    · exact ih _ _ _ h
    next st3 r3 heq =>
      cases h
      exact touchOne_err _ _ _ _ heq

theorem touchLoop_code (l : List Str) : ∀ (st st2 : TermState) (r : Str × Nat),
    touchLoop st l = (st2, r) → r.2 = 0 ∨ (r.2 = 1 ∧ r.1 ≠ []) := by
  induction l with
  | nil =>
    intro st st2 r h
    rw [touchLoop] at h
    cases h
    exact Or.inl rfl
  | cons pat rest ih =>
    intro st st2 r h
    rw [touchLoop] at h
    split at h
    · exact ih _ _ _ h
    next st3 r3 heq =>
      cases h
      exact Or.inr (touchEach_err _ _ _ _ heq)

theorem handleTouch_code (st : TermState) (args : List Str) :
    (handleTouch st args).2.2 = 0 ∨
      ((handleTouch st args).2.2 = 1 ∧ (handleTouch st args).2.1 ≠ []) := by
  rw [handleTouch]
  split
  · exact Or.inr ⟨rfl, redMsg_ne _⟩
  · exact touchLoop_code args st _ _ rfl

theorem handleHistory_zero (st : TermState) : (handleHistory st).2 = 0 := by
  rw [handleHistory]
  split <;> rfl

theorem handleHelp_zero (env : Env) : (handleHelp env).2 = 0 := by
  rw [handleHelp]
  split <;> rfl

theorem sysInfoResult_code (env : Env) (c : Str) (args : List Str) :
    (sysInfoResult env c args).2 = 0 ∨
      ((sysInfoResult env c args).2 = 1 ∧ (sysInfoResult env c args).1 ≠ []) := by
  rw [sysInfoResult]
  split
  · exact Or.inl rfl
  · exact Or.inr ⟨rfl, redMsg_ne _⟩

theorem dispatch_code (env : Env)
    (recur : TermState → Str → TermState × (Str × Nat) × List Str)
    (st1 : TermState) (cmd c : Str) (args : List Str)
    (hc : c ∈ builtinNames) :
    (dispatch env recur st1 cmd c args).2.1.2 = 0 ∨
      ((dispatch env recur st1 cmd c args).2.1.2 = 1 ∧
        (dispatch env recur st1 cmd c args).2.1.1 ≠ []) := by
  simp only [builtinNames, List.mem_cons, List.not_mem_nil, or_false] at hc
  rcases hc with rfl | rfl | rfl | rfl | rfl | rfl | rfl | rfl | rfl | rfl | rfl | rfl |
    rfl | rfl | rfl | rfl | rfl | rfl | rfl | rfl | rfl | rfl | rfl | rfl | rfl | rfl | rfl
  · exact Or.inl rfl
  · exact Or.inl rfl
  · exact Or.inl rfl
  · exact Or.inl rfl
  · rcases hcd : handleCd st1 args with ⟨st2, res⟩
    cases res with
    | ok r =>
      rw [dispatch_cd, hcd]
      exact handleCd_code st1 st2 args r hcd
    | error e =>
      rw [dispatch_cd, hcd]
      exact Or.inr ⟨rfl, redMsg_ne _⟩
  · have h : (dispatch env recur st1 cmd (str "ls") args).2.1 = handleLs st1 args := rfl
    rw [h]
    exact handleLs_code st1 args
  · have h : (dispatch env recur st1 cmd (str "mkdir") args).2.1 = (handleMkdir st1 args).2 := rfl
    rw [h]
    exact handleMkdir_code st1 args
  · have h : (dispatch env recur st1 cmd (str "rm") args).2.1 = (handleRm st1 args).2 := rfl
    rw [h]
    exact handleRm_code st1 args
  · have h : (dispatch env recur st1 cmd (str "rmdir") args).2.1 = (handleRmdir st1 args).2 := rfl
    rw [h]
    exact handleRmdir_code st1 args
  · rcases hcp : handleCp st1 args with ⟨st2, res⟩
    cases res with
    | ok r =>
      rw [dispatch_cp, hcp]
      exact handleCp_code st1 st2 args r hcp
    | error e =>
      rw [dispatch_cp, hcp]
      exact Or.inr ⟨rfl, redMsg_ne _⟩
  · have h : (dispatch env recur st1 cmd (str "mv") args).2.1 = (handleMv st1 args).2 := rfl
    rw [h]
    exact handleMv_code st1 args
  · rcases hcat : handleCat st1 args with e | r
    · rw [dispatch_cat, hcat]
      exact Or.inr ⟨rfl, redMsg_ne _⟩
    · rw [dispatch_cat, hcat]
      exact handleCat_code st1 args r hcat
  · exact Or.inl rfl
  · rcases hgr : handleGrep st1 args with e | r
    · rw [dispatch_grep, hgr]
      exact Or.inr ⟨rfl, redMsg_ne _⟩
    · rw [dispatch_grep, hgr]
      exact handleGrep_code st1 args r hgr
  · have h : (dispatch env recur st1 cmd (str "find") args).2.1 = handleFind st1 args := rfl
    rw [h]
    exact handleFind_code st1 args
  · have h : (dispatch env recur st1 cmd (str "ps") args).2.1 = sysInfoResult env (str "ps") args := rfl
    rw [h]
    exact sysInfoResult_code env (str "ps") args
  · have h : (dispatch env recur st1 cmd (str "top") args).2.1 = sysInfoResult env (str "top") args := rfl
    rw [h]
    exact sysInfoResult_code env (str "top") args
  · have h : (dispatch env recur st1 cmd (str "df") args).2.1 = sysInfoResult env (str "df") args := rfl
    rw [h]
    exact sysInfoResult_code env (str "df") args
  · have h : (dispatch env recur st1 cmd (str "du") args).2.1 = sysInfoResult env (str "du") args := rfl
    rw [h]
    exact sysInfoResult_code env (str "du") args
  · have h : (dispatch env recur st1 cmd (str "free") args).2.1 = sysInfoResult env (str "free") args := rfl
    rw [h]
    exact sysInfoResult_code env (str "free") args
  · have h : (dispatch env recur st1 cmd (str "uptime") args).2.1 = sysInfoResult env (str "uptime") args := rfl
    rw [h]
    exact sysInfoResult_code env (str "uptime") args
  · have h : (dispatch env recur st1 cmd (str "kill") args).2.1 = handleKill env args := rfl
    rw [h]
    exact handleKill_code env args
  · exact Or.inl rfl
  · exact Or.inl rfl
  · have h : (dispatch env recur st1 cmd (str "history") args).2.1 = handleHistory st1 := rfl
    rw [h]
    exact Or.inl (handleHistory_zero st1)
  · have h : (dispatch env recur st1 cmd (str "help") args).2.1 = handleHelp env := rfl
    rw [h]
    exact Or.inl (handleHelp_zero env)
  · have h : (dispatch env recur st1 cmd (str "touch") args).2.1 = (handleTouch st1 args).2 := rfl
    rw [h]
    exact handleTouch_code st1 args

theorem handleAI_noKey (recur : TermState → Str → TermState × (Str × Nat) × List Str)
    (env : Env) (st : TermState) (args : List Str) (h : env.hasAI = false) :
    handleAI recur env st args =
      (st, (redMsg (str "AI functionality not available. Please provide a Gemini API key."), 1),
        []) := by
  rw [handleAI, if_pos (by simp [h])]

theorem handleAI_noArgs (recur : TermState → Str → TermState × (Str × Nat) × List Str)
    (env : Env) (st : TermState) :
    (handleAI recur env st []).2.1.2 = 1 ∧ (handleAI recur env st []).2.1.1 ≠ [] := by
  rw [handleAI]
  by_cases h : env.hasAI
  · rw [if_neg (by simp [h]), if_pos (by decide)]
    exact ⟨rfl, yelMsg_ne _⟩
  · rw [if_pos (by simp [h])]
    exact ⟨rfl, redMsg_ne _⟩

theorem grep_perm (st : TermState) (pat f content : Str)
    (hperm : fsEntry st.fs (resolveFrom st.currentDir f) =
      some (FEntry.file content false)) :
    handleGrep st [pat, f] =
      Except.ok (redMsg (str "grep: " ++ f ++ str ": Permission denied"), 0) := by
  have hread : readFile st.fs st.currentDir f = ReadRes.permDenied := by
    rw [readFile, hperm]
  unfold handleGrep
  dsimp only
  rw [if_neg (by simp)]
  rw [grepLoop, hread, grepLoop]
  simp [grepLoop, List.intercalate]

end Terminal

namespace Terminal

/-! ## Claim theorems, witnesses and counterexamples -/


/-- C4: for every AI interpreter reply in which success is false or the
commands list is empty, `_handle_ai_command` executes no command (the result
is independent of the dispatcher `recur` and the dispatch trace is empty),
leaves the session state unchanged, and returns exit_code 1. -/
theorem c4_ai_gating (recur : TermState → Str → TermState × (Str × Nat) × List Str)
    (env : Env) (st : TermState) (args : List Str)
    (hAI : env.hasAI = true) (hargs : args ≠ [])
    (hfail :
      (env.interpret (List.intercalate (str " ") args) st.currentDir
        (listNames st.fs (curPath st.currentDir))).success = false ∨
      (env.interpret (List.intercalate (str " ") args) st.currentDir
        (listNames st.fs (curPath st.currentDir))).commands = []) :
    (handleAI recur env st args).1 = st ∧
    (handleAI recur env st args).2.1.2 = 1 ∧
    (handleAI recur env st args).2.2 = [] ∧
    ∀ recur2, handleAI recur2 env st args = handleAI recur env st args := by
  have key : ∀ rc : TermState → Str → TermState × (Str × Nat) × List Str,
      handleAI rc env st args =
        (st,
          (if (env.interpret (List.intercalate (str " ") args) st.currentDir
                (listNames st.fs (curPath st.currentDir))).success = false
           then redMsg (str "AI Error: " ++
             (env.interpret (List.intercalate (str " ") args) st.currentDir
               (listNames st.fs (curPath st.currentDir))).errorMessage)
           else yelMsg (str "AI could not interpret the request: " ++
             (env.interpret (List.intercalate (str " ") args) st.currentDir
               (listNames st.fs (curPath st.currentDir))).explanation), 1), []) := by
    intro rc
    unfold handleAI
    rw [if_neg (by simp [hAI])]
    rw [if_neg (by simpa using hargs)]
    rcases hfail with hs | hc
    · rw [if_pos (by simp [hs]), if_pos hs]
    · by_cases hs : (env.interpret (List.intercalate (str " ") args) st.currentDir
        (listNames st.fs (curPath st.currentDir))).success = false
      · rw [if_pos (by simp [hs]), if_pos hs]
      · rw [if_neg (by simp at hs ⊢; simp [hs])]
        rw [if_pos (by simp [hc])]
        rw [if_neg hs]
  refine ⟨by rw [key recur], by rw [key recur], by rw [key recur],
    fun recur2 => by rw [key recur2, key recur]⟩

/-- Witness for C4 at a concrete environment whose interpreter reply has
success false and an empty command list. -/
theorem c4_witness :
    (handleAI (fun st c => (st, (str "", 0), [])) testEnv stW [str "list it"]).1 = stW ∧
    (handleAI (fun st c => (st, (str "", 0), [])) testEnv stW [str "list it"]).2.1.2 = 1 := by
  have h := c4_ai_gating (fun st c => (st, (str "", 0), [])) testEnv stW [str "list it"]
    rfl (by decide) (Or.inl rfl)
  exact ⟨h.1, h.2.1⟩

/-- C5: in `_handle_ai_command`, once a successful nonempty interpretation is
in hand, the yes/no confirmation is consulted exactly when some returned
command string contains one of the substrings rm, rmdir, mv, kill
(`isDestructive`): otherwise the result does not depend on the prompt's
outcome; and when it is consulted, declining (or an interrupt, both make
`confirmed` false) returns the cancellation message with exit_code 0 and
executes none of the commands, leaving the session state (filesystem,
current directory, history) unchanged. -/
theorem c5_confirm (recur : TermState → Str → TermState × (Str × Nat) × List Str)
    (env : Env) (st : TermState) (args : List Str)
    (hAI : env.hasAI = true) (hargs : args ≠ [])
    (hsucc : (env.interpret (List.intercalate (str " ") args) st.currentDir
        (listNames st.fs (curPath st.currentDir))).success = true)
    (hcmds : (env.interpret (List.intercalate (str " ") args) st.currentDir
        (listNames st.fs (curPath st.currentDir))).commands ≠ []) :
    (isDestructive ((env.interpret (List.intercalate (str " ") args) st.currentDir
        (listNames st.fs (curPath st.currentDir))).commands) = false →
      ∀ a, handleAI recur env st args = handleAI recur { env with confirmAns := a } st args) ∧
    (isDestructive ((env.interpret (List.intercalate (str " ") args) st.currentDir
        (listNames st.fs (curPath st.currentDir))).commands) = true →
      confirmed env.confirmAns = false →
      handleAI recur env st args = (st, (cancelledMsg, 0), [])) := by
  constructor
  · intro hnd a
    unfold handleAI
    rw [if_neg (by simp [hAI])]
    rw [if_neg (by simpa using hargs)]
    rw [if_neg (by simp [hsucc])]
    rw [if_neg (by simpa using hcmds)]
    rw [if_neg (by simp [hnd])]
    rw [if_neg (by simp [hAI])]
    rw [if_neg (by simpa using hargs)]
    rw [if_neg (by simp [hsucc])]
    rw [if_neg (by simpa using hcmds)]
    rw [if_neg (by simp [hnd])]
  · intro hd hnc
    unfold handleAI
    rw [if_neg (by simp [hAI])]
    rw [if_neg (by simpa using hargs)]
    rw [if_neg (by simp [hsucc])]
    rw [if_neg (by simpa using hcmds)]
    rw [if_pos ⟨hd, by simp [hnc]⟩]

/-- Witness for C5: an interpretation containing "rm file.txt" with a
simulated "n" answer yields the cancellation result and an unchanged
state. -/
theorem c5_witness :
    handleAI (fun st c => (st, (str "", 0), [])) testEnvRm stW [str "delete it"] =
      (stW, (cancelledMsg, 0), []) := by
  exact (c5_confirm (fun st c => (st, (str "", 0), [])) testEnvRm stW [str "delete it"]
    rfl (by decide) rfl (by decide)).2 (by decide) (by decide)

/-- C6: the session's `current_directory` is mutated only by the cd
operation: every `execute_command` call whose dispatch trace (the dispatched
command names, after alias expansion, including those dispatched by AI
replay) does not contain "cd" leaves `current_directory` unchanged. -/
theorem c6_dir_frame (env : Env) (fuel : Nat) (st : TermState) (cmd : Str)
    (h : str "cd" ∉ (executeCommand env fuel st cmd).2.2) :
    (executeCommand env fuel st cmd).1.currentDir = st.currentDir :=
  (exec_master env fuel st _ cmd _ _ rfl).1 h

/-- Witness for C6 at a concrete non-cd command. -/
theorem c6_witness :
    str "cd" ∉ (executeCommand testEnv 1 stW (str "echo hi")).2.2 ∧
      (executeCommand testEnv 1 stW (str "echo hi")).1.currentDir = stW.currentDir :=
  ⟨by decide, c6_dir_frame testEnv 1 stW (str "echo hi") (by decide)⟩

/-- C9: alias expansion replaces the line's first whitespace-delimited token
with its mapped expansion exactly when that token is a key of the alias
table, leaving the leading whitespace and all following characters (hence
all other tokens) unchanged; the right-hand side splices the raw table
value, so expansion is single-level and not re-applied. -/
theorem c9_alias (ws tok rest : Str)
    (hws : ∀ c ∈ ws, isWS c = true) (htok : ∀ c ∈ tok, isWS c = false)
    (htne : tok ≠ [])
    (hrest : rest = [] ∨ ∃ w r, rest = w :: r ∧ isWS w = true) :
    (∀ v, lookupAlias tok = some v →
      expandAliases (ws ++ (tok ++ rest)) = ws ++ (v ++ rest)) ∧
    (lookupAlias tok = none →
      expandAliases (ws ++ (tok ++ rest)) = ws ++ (tok ++ rest)) :=
  expandAliases_char ws tok rest hws htok htne hrest

/-- Witness for C9: the aliased token "h" at the head of " h tail" expands
once to "history". -/
theorem c9_witness :
    lookupAlias (str "h") = some (str "history") ∧
      expandAliases (str " " ++ (str "h" ++ str " tail")) =
        str " " ++ (str "history" ++ str " tail") :=
  ⟨by decide,
    (c9_alias (str " ") (str "h") (str " tail") (by decide) (by decide) (by decide)
      (Or.inr ⟨' ', str "tail", rfl, by decide⟩)).1 (str "history") (by decide)⟩

/-- C8: every `execute_command` call with non-whitespace input appends the
raw, pre-alias-expansion input string to `command_history` (as a prefix
extension; nested AI replays may append further entries of their own), a
sequence of non-AI calls appends exactly those raw strings in call order,
and the history built-in then displays the most recent 20 entries in that
order, numbered from 1. -/
theorem c8_history (env : Env) (fuel : Nat) (st0 : TermState) (cmds : List Str)
    (hcmds : ∀ c ∈ cmds, isBlank c = false ∧
      firstTokL c ≠ some (str "ai") ∧ firstTokL c ≠ some (str "smart")) :
    (∀ (st : TermState) (cmd : Str), isBlank cmd = false →
      st.history ++ [cmd] <+: (executeCommand env (fuel + 1) st cmd).1.history) ∧
    (cmds.foldl (fun s c => (executeCommand env (fuel + 1) s c).1) st0).history
      = st0.history ++ cmds ∧
    (executeCommand env (fuel + 1)
        (cmds.foldl (fun s c => (executeCommand env (fuel + 1) s c).1) st0)
        (str "history")).2.1 =
      (List.intercalate (str "\n")
        (histLines 1 (lastN 20 (st0.history ++ cmds ++ [str "history"]))), 0) := by
  have hfold : ∀ (l : List Str) (st : TermState),
      (∀ c ∈ l, isBlank c = false ∧
        firstTokL c ≠ some (str "ai") ∧ firstTokL c ≠ some (str "smart")) →
      (l.foldl (fun s c => (executeCommand env (fuel + 1) s c).1) st).history
        = st.history ++ l := by
    intro l
    induction l with
    | nil => intro st _; simp
    | cons c cs ih =>
      intro st hl
      have hc := hl c (List.mem_cons_self c cs)
      rw [List.foldl_cons]
      rw [ih _ (fun x hx => hl x (List.mem_cons_of_mem c hx))]
      rw [exec_hist_exact env fuel st c hc.1 hc.2.1 hc.2.2]
      simp
  refine ⟨fun st cmd hb => exec_hist_prefix env fuel st cmd hb, hfold cmds st0 hcmds, ?_⟩
  have hN := hfold cmds st0 hcmds
  have hb : isBlank (str "history") = false := by decide
  have hp : pySplit (expandAliases (str "history")) = [str "history"] := by decide
  rw [exec_dispatch env fuel _ (str "history") (str "history") [] hb hp]
  have hlow : lowerStr (str "history") = str "history" := by decide
  rw [hlow, dispatch_history]
  rw [handleHistory]
  rw [if_neg (by simp [hN])]
  simp [hN]

/-- Witness for C8 with two echo commands followed by the history
built-in. -/
theorem c8_witness :
    (List.foldl (fun s c => (executeCommand testEnv 1 s c).1) stW
        [str "echo a", str "echo b"]).history = [str "echo a", str "echo b"] ∧
    (executeCommand testEnv 1
        (List.foldl (fun s c => (executeCommand testEnv 1 s c).1) stW
          [str "echo a", str "echo b"]) (str "history")).2.1 =
      (List.intercalate (str "\n")
        (histLines 1 (lastN 20 [str "echo a", str "echo b", str "history"])), 0) := by
  have h := c8_history testEnv 0 stW [str "echo a", str "echo b"] (by decide)
  refine ⟨?_, ?_⟩
  · have := h.2.1
    simpa using this
  · have := h.2.2
    simpa using this

theorem handleCd_eval (st : TermState) (p : Str) (hnotilde : p.head? ≠ some '~') :
    handleCd st [p] =
      (match fsEntry st.fs
          (normalize (splitSlash (if isAbs p then p else pyJoin st.currentDir p)) []) with
       | some FEntry.dir =>
         ({ st with currentDir := pathToStr (normalize (splitSlash (if isAbs p then p else pyJoin st.currentDir p)) []) },
           Except.ok (str "", 0))
       | none =>
         (st, Except.ok (redMsg (str "cd: " ++
           (if isAbs p then p else pyJoin st.currentDir p) ++
           str ": No such file or directory"), 1))
       | some (FEntry.file _ _) =>
         (st, Except.error (str "[Errno 20] Not a directory: " ++
           (if isAbs p then p else pyJoin st.currentDir p)))) := by
  unfold handleCd
  dsimp only
  rw [if_neg hnotilde]
  try rfl

/-- C7: `execute("cd <path>")` for a path that does not resolve to an
existing entry returns exit_code 1 and leaves `current_directory`
unchanged; for an existing directory it returns `("", 0)` and a subsequent
`execute("pwd")` returns the resolved absolute path of that directory with
exit_code 0. -/
theorem c7_cd_pwd (env : Env) (fuel f2 : Nat) (st : TermState) (p : Str)
    (hp : ∀ c ∈ p, isWS c = false) (hpne : p ≠ []) (hnotilde : p.head? ≠ some '~') :
    (fsEntry st.fs (normalize (splitSlash (if isAbs p then p else pyJoin st.currentDir p)) [])
        = none →
      (executeCommand env (fuel + 1) st (str "cd " ++ p)).2.1 =
        (redMsg (str "cd: " ++ (if isAbs p then p else pyJoin st.currentDir p) ++
          str ": No such file or directory"), 1) ∧
      (executeCommand env (fuel + 1) st (str "cd " ++ p)).1.currentDir = st.currentDir) ∧
    (fsEntry st.fs (normalize (splitSlash (if isAbs p then p else pyJoin st.currentDir p)) [])
        = some FEntry.dir →
      (executeCommand env (fuel + 1) st (str "cd " ++ p)).2.1 = (str "", 0) ∧
      (executeCommand env (f2 + 1)
          (executeCommand env (fuel + 1) st (str "cd " ++ p)).1 (str "pwd")).2.1 =
        (pathToStr (normalize
          (splitSlash (if isAbs p then p else pyJoin st.currentDir p)) []), 0)) := by
  have hb : isBlank (str "cd " ++ p) = false :=
    isBlank_append_false (str "cd ") p (by decide)
  have hshape : str "cd " ++ p = str "cd" ++ (' ' :: p) := rfl
  have hexp : expandAliases (str "cd " ++ p) = str "cd " ++ p := by
    rw [hshape]
    exact expandAliases_none (str "cd") (' ' :: p) (by decide) (by decide)
      (Or.inr ⟨' ', p, rfl, by decide⟩) (by decide)
  have hpsplit : pySplit (expandAliases (str "cd " ++ p)) = [str "cd", p] := by
    rw [hexp, hshape]
    exact pySplit_two (str "cd") p (by decide) (by decide) hp hpne
  have hstep := exec_dispatch env fuel st (str "cd " ++ p) (str "cd") [p] hb hpsplit
  have hlow : lowerStr (str "cd") = str "cd" := by decide
  rw [hlow] at hstep
  rw [hstep, dispatch_cd]
  rw [handleCd_eval _ p hnotilde]
  constructor
  · intro hnone
    rw [hnone]
    exact ⟨rfl, rfl⟩
  · intro hdir
    rw [hdir]
    refine ⟨rfl, ?_⟩
    have hb2 : isBlank (str "pwd") = false := by decide
    have hp2 : pySplit (expandAliases (str "pwd")) = [str "pwd"] := by decide
    rw [exec_dispatch env f2 _ (str "pwd") (str "pwd") [] hb2 hp2]
    have hlow2 : lowerStr (str "pwd") = str "pwd" := by decide
    rw [hlow2, dispatch_pwd]
    try rfl

/-- Witness for C7: `cd nope` fails and leaves the directory unchanged;
`cd sub` then `pwd` yields `/w/sub`. -/
theorem c7_witness :
    (fsEntry stW.fs (normalize (splitSlash
        (if isAbs (str "nope") then str "nope"
         else pyJoin stW.currentDir (str "nope"))) []) = none ∧
      (executeCommand testEnv 1 stW (str "cd " ++ str "nope")).2.1.2 = 1 ∧
      (executeCommand testEnv 1 stW (str "cd " ++ str "nope")).1.currentDir = stW.currentDir) ∧
    ((executeCommand testEnv 1 stW (str "cd " ++ str "sub")).2.1 = (str "", 0) ∧
      (executeCommand testEnv 1
          (executeCommand testEnv 1 stW (str "cd " ++ str "sub")).1 (str "pwd")).2.1 =
        (str "/w/sub", 0)) := by
  constructor
  · refine ⟨by decide, ?_, ?_⟩
    · have h := (c7_cd_pwd testEnv 0 0 stW (str "nope")
        (by decide) (by decide) (by decide)).1 (by decide)
      rw [h.1]
    · exact (((c7_cd_pwd testEnv 0 0 stW (str "nope")
        (by decide) (by decide) (by decide)).1 (by decide))).2
  · have h := (c7_cd_pwd testEnv 0 0 stW (str "sub")
      (by decide) (by decide) (by decide)).2 (by decide)
    exact ⟨h.1, by rw [h.2]; decide⟩

/-- C2 counterexample: `rm *.tmp` in a directory where the glob matches
nothing reports "rm: no files matched" with exit_code 1 and removes
nothing — the source does not fall back to the literal pattern as a
removal target, contrary to the claim. -/
theorem c2_counterexample :
    hasWildcard (str "*.tmp") = true ∧
    globExpand stW.fs stW.currentDir (str "*.tmp") = [] ∧
    (executeCommand testEnv 1 stW (str "rm *.tmp")).2.1 =
      (redMsg (str "rm: no files matched"), 1) ∧
    (executeCommand testEnv 1 stW (str "rm *.tmp")).1.fs = stW.fs := by
  refine ⟨by decide, by decide, by decide, by decide⟩

/-- C2 (amended): when rm is given a wildcard pattern that matches no
existing path, the pattern contributes no removal targets; with no other
targets, rm reports "rm: no files matched" with exit_code 1 and leaves the
filesystem and current directory unchanged (unlike mkdir and touch, rm
never treats the unmatched literal pattern as a target).  Stated for
slash-free single-component patterns without character classes — the
fragment of `glob.glob` covered by `globExpand`. -/
theorem c2_amended (env : Env) (fuel : Nat) (st : TermState) (pat : Str)
    (hp : ∀ c ∈ pat, isWS c = false) (hpne : pat ≠ [])
    (hsl : ('/' : Char) ∉ pat) (hbr : ('[' : Char) ∉ pat)
    (hw : hasWildcard pat = true)
    (hglob : globExpand st.fs st.currentDir pat = []) :
    (executeCommand env (fuel + 1) st (str "rm " ++ pat)).2.1 =
      (redMsg (str "rm: no files matched"), 1) ∧
    (executeCommand env (fuel + 1) st (str "rm " ++ pat)).1.fs = st.fs ∧
    (executeCommand env (fuel + 1) st (str "rm " ++ pat)).1.currentDir = st.currentDir := by
  have hb : isBlank (str "rm " ++ pat) = false :=
    isBlank_append_false (str "rm ") pat (by decide)
  have hshape : str "rm " ++ pat = str "rm" ++ (' ' :: pat) := rfl
  have hexp : expandAliases (str "rm " ++ pat) = str "rm " ++ pat := by
    rw [hshape]
    exact expandAliases_none (str "rm") (' ' :: pat) (by decide) (by decide)
      (Or.inr ⟨' ', pat, rfl, by decide⟩) (by decide)
  have hpsplit : pySplit (expandAliases (str "rm " ++ pat)) = [str "rm", pat] := by
    rw [hexp, hshape]
    exact pySplit_two (str "rm") pat (by decide) (by decide) hp hpne
  have hstep := exec_dispatch env fuel st (str "rm " ++ pat) (str "rm") [pat] hb hpsplit
  have hlow : lowerStr (str "rm") = str "rm" := by decide
  rw [hlow] at hstep
  rw [hstep, dispatch_rm]
  have hnr : ¬(pat = str "-r" ∨ pat = str "-rf") := by
    rintro (h | h) <;> rw [h] at hw <;> exact Bool.noConfusion hw
  have hre : handleRm { st with history := st.history ++ [str "rm " ++ pat] } [pat] =
      ({ st with history := st.history ++ [str "rm " ++ pat] },
        (redMsg (str "rm: no files matched"), 1)) := by
    unfold handleRm
    rw [if_neg (by simp)]
    dsimp only
    rw [List.foldl_cons, List.foldl_nil]
    rw [if_neg hnr, if_pos hw, hglob]
    rw [if_pos (by decide)]
  rw [hre]
  exact ⟨rfl, rfl, rfl⟩

/-- Witness for the amended C2 at the concrete pattern `*.tmp`. -/
theorem c2_amended_witness :
    (∀ c ∈ str "*.tmp", isWS c = false) ∧
    ('/' : Char) ∉ str "*.tmp" ∧
    ('[' : Char) ∉ str "*.tmp" ∧
    (executeCommand testEnv 1 stW (str "rm " ++ str "*.tmp")).2.1 =
      (redMsg (str "rm: no files matched"), 1) := by
  refine ⟨by decide, by decide, by decide, ?_⟩
  exact (c2_amended testEnv 0 stW (str "*.tmp") (by decide) (by decide)
    (by decide) (by decide) (by decide) (by decide)).1

/-- C1 counterexample: grep on a missing file returns non-empty diagnostic
output with exit_code 0, not 1 as the claim states. -/
theorem c1_counterexample :
    fsEntry stW.fs (resolveFrom stW.currentDir (str "nofile.txt")) = none ∧
    (executeCommand testEnv 1 stW (str "grep x nofile.txt")).2.1.1 ≠ str "" ∧
    (executeCommand testEnv 1 stW (str "grep x nofile.txt")).2.1.2 = 0 := by
  refine ⟨by decide, by decide, by decide⟩

/-- C3 counterexample: `cat miss.txt b.txt` with `b.txt` existing and
readable returns only the error for `miss.txt` with exit_code 1 — the
remaining file is not processed, contrary to the claim that cat reports
per-file failures without aborting. -/
theorem c3_counterexample :
    fsEntry stW.fs (resolveFrom stW.currentDir (str "miss.txt")) = none ∧
    fsEntry stW.fs (resolveFrom stW.currentDir (str "b.txt")) =
      some (FEntry.file (str "hello\nworld hat\n") true) ∧
    (executeCommand testEnv 1 stW (str "cat miss.txt b.txt")).2.1 =
      (redMsg (str "cat: miss.txt: No such file or directory"), 1) := by
  refine ⟨by decide, by decide, by decide⟩

/-- C3 (amended): grep reports a no-such-file or permission-denied failure
per file and continues with the remaining file arguments, whereas cat
aborts at its first failing file, returning that file's error with
exit_code 1 regardless of the remaining arguments. -/
theorem c3_amended (st : TermState) :
    (∀ pat bad rest acc, readFile st.fs st.currentDir bad = ReadRes.notFound →
      grepLoop st pat (bad :: rest) acc =
        grepLoop st pat rest
          (acc ++ [redMsg (str "grep: " ++ bad ++ str ": No such file or directory")])) ∧
    (∀ pat bad rest acc, readFile st.fs st.currentDir bad = ReadRes.permDenied →
      grepLoop st pat (bad :: rest) acc =
        grepLoop st pat rest
          (acc ++ [redMsg (str "grep: " ++ bad ++ str ": Permission denied")])) ∧
    (∀ bad rest acc, readFile st.fs st.currentDir bad = ReadRes.notFound →
      catLoop st (bad :: rest) acc =
        Except.ok (redMsg (str "cat: " ++ bad ++ str ": No such file or directory"), 1)) := by
  refine ⟨?_, ?_, ?_⟩
  · intro pat bad rest acc h
    rw [grepLoop, h]
  · intro pat bad rest acc h
    rw [grepLoop, h]
  · intro bad rest acc h
    rw [catLoop, h]

/-- Witness for the amended C3 at concrete file lists. -/
theorem c3_amended_witness :
    readFile stW.fs stW.currentDir (str "miss.txt") = ReadRes.notFound ∧
    grepLoop stW (str "x") [str "miss.txt", str "b.txt"] [] =
      grepLoop stW (str "x") [str "b.txt"]
        [redMsg (str "grep: " ++ str "miss.txt" ++ str ": No such file or directory")] ∧
    catLoop stW [str "miss.txt", str "b.txt"] [] =
      Except.ok (redMsg (str "cat: " ++ str "miss.txt" ++ str ": No such file or directory"), 1) := by
  refine ⟨by decide, ?_, ?_⟩
  · have h := (c3_amended stW).1 (str "x") (str "miss.txt") [str "b.txt"] [] (by decide)
    simpa using h
  · exact (c3_amended stW).2.2 (str "miss.txt") [str "b.txt"] [] (by decide)

/-- C1 (amended): every result a built-in branch of the dispatch chain
returns carries exit_code 0, or exit_code 1 together with a non-empty
diagnostic — uniformly over all twenty-seven built-in names, including the
introspection commands `ps`/`top`/`df`/`du`/`free`/`uptime` (whose psutil
failures are wrapped as exit-1 errors) and the `ai` gating errors (missing
API key, missing query).  The exception is grep: its per-file
no-such-file and permission-denied failures are embedded in the output of
an exit-0 return, and every normally returning grep invocation exits 0.
Every built-in invoked with a missing required operand returns exit_code 1
with a fixed non-empty diagnostic message. -/
theorem c1_amended (env : Env) (fuel : Nat) (st : TermState) :
    (∀ (recur : TermState → Str → TermState × (Str × Nat) × List Str)
        (st1 : TermState) (cmd c : Str) (args : List Str), c ∈ builtinNames →
      (dispatch env recur st1 cmd c args).2.1.2 = 0 ∨
        ((dispatch env recur st1 cmd c args).2.1.2 = 1 ∧
          (dispatch env recur st1 cmd c args).2.1.1 ≠ [])) ∧
    (env.hasAI = false →
      ∀ (recur : TermState → Str → TermState × (Str × Nat) × List Str)
        (st2 : TermState) (args : List Str),
      handleAI recur env st2 args =
        (st2,
          (redMsg (str "AI functionality not available. Please provide a Gemini API key."), 1),
          [])) ∧
    (∀ (recur : TermState → Str → TermState × (Str × Nat) × List Str) (st2 : TermState),
      (handleAI recur env st2 []).2.1.2 = 1 ∧ (handleAI recur env st2 []).2.1.1 ≠ []) ∧
    (∀ pat f, fsEntry st.fs (resolveFrom st.currentDir f) = none →
      handleGrep st [pat, f] =
        Except.ok (redMsg (str "grep: " ++ f ++ str ": No such file or directory"), 0)) ∧
    (∀ pat f content,
      fsEntry st.fs (resolveFrom st.currentDir f) = some (FEntry.file content false) →
      handleGrep st [pat, f] =
        Except.ok (redMsg (str "grep: " ++ f ++ str ": Permission denied"), 0)) ∧
    (∀ pat files acc r, grepLoop st pat files acc = Except.ok r → r.2 = 0) ∧
    ((executeCommand env (fuel + 1) st (str "mkdir")).2.1 =
        (redMsg (str "mkdir: missing operand"), 1) ∧
      (executeCommand env (fuel + 1) st (str "rm")).2.1 =
        (redMsg (str "rm: missing operand"), 1) ∧
      (executeCommand env (fuel + 1) st (str "rmdir")).2.1 =
        (redMsg (str "rmdir: missing operand"), 1) ∧
      (executeCommand env (fuel + 1) st (str "cat")).2.1 =
        (redMsg (str "cat: missing operand"), 1) ∧
      (executeCommand env (fuel + 1) st (str "grep")).2.1 =
        (redMsg (str "grep: missing pattern"), 1) ∧
      (executeCommand env (fuel + 1) st (str "find")).2.1 =
        (redMsg (str "find: missing path"), 1) ∧
      (executeCommand env (fuel + 1) st (str "kill")).2.1 =
        (redMsg (str "kill: missing operand"), 1) ∧
      (executeCommand env (fuel + 1) st (str "touch")).2.1 =
        (redMsg (str "touch: missing operand"), 1) ∧
      (executeCommand env (fuel + 1) st (str "cp x")).2.1 =
        (redMsg (str "cp: missing file operand"), 1) ∧
      (executeCommand env (fuel + 1) st (str "mv x")).2.1 =
        (redMsg (str "mv: missing file operand"), 1)) ∧
    (redMsg (str "mkdir: missing operand") ≠ str "" ∧
      redMsg (str "rm: missing operand") ≠ str "" ∧
      redMsg (str "rmdir: missing operand") ≠ str "" ∧
      redMsg (str "cat: missing operand") ≠ str "" ∧
      redMsg (str "grep: missing pattern") ≠ str "" ∧
      redMsg (str "find: missing path") ≠ str "" ∧
      redMsg (str "kill: missing operand") ≠ str "" ∧
      redMsg (str "touch: missing operand") ≠ str "" ∧
      redMsg (str "cp: missing file operand") ≠ str "" ∧
      redMsg (str "mv: missing file operand") ≠ str "") := by
  refine ⟨?_, ?_, ?_, ?_, ?_, ?_, ⟨rfl, rfl, rfl, rfl, rfl, rfl, rfl, rfl, rfl, rfl⟩,
    by decide⟩
  · intro recur st1 cmd c args hc
    exact dispatch_code env recur st1 cmd c args hc
  · intro h recur st2 args
    exact handleAI_noKey recur env st2 args h
  · intro recur st2
    exact handleAI_noArgs recur env st2
  · intro pat f hnone
    have hread : readFile st.fs st.currentDir f = ReadRes.notFound := by
      rw [readFile, hnone]
    unfold handleGrep
    dsimp only
    rw [if_neg (by simp)]
    rw [grepLoop, hread, grepLoop]
    simp [grepLoop, List.intercalate]
  · intro pat f content hperm
    exact grep_perm st pat f content hperm
  · intro pat files acc r h
    exact grepLoop_zero st pat files acc r h

/-- Witness for the amended C1 at concrete inputs: a missing and an
unreadable grep target, the `kill` built-in on empty arguments, an `ai`
call without a query, and `mkdir` without operand. -/
theorem c1_amended_witness :
    fsEntry stW.fs (resolveFrom stW.currentDir (str "ghost.txt")) = none ∧
    handleGrep stW [str "x", str "ghost.txt"] =
      Except.ok (redMsg (str "grep: " ++ str "ghost.txt" ++
        str ": No such file or directory"), 0) ∧
    fsEntry stW.fs (resolveFrom stW.currentDir (str "locked.txt")) =
      some (FEntry.file (str "secret") false) ∧
    handleGrep stW [str "x", str "locked.txt"] =
      Except.ok (redMsg (str "grep: " ++ str "locked.txt" ++ str ": Permission denied"), 0) ∧
    ((dispatch testEnv (fun st _ => (st, (str "", 0), [])) stW (str "kill") (str "kill")
        []).2.1.2 = 0 ∨
      ((dispatch testEnv (fun st _ => (st, (str "", 0), [])) stW (str "kill") (str "kill")
          []).2.1.2 = 1 ∧
        (dispatch testEnv (fun st _ => (st, (str "", 0), [])) stW (str "kill") (str "kill")
          []).2.1.1 ≠ [])) ∧
    ((handleAI (fun st _ => (st, (str "", 0), [])) testEnv stW []).2.1.2 = 1 ∧
      (handleAI (fun st _ => (st, (str "", 0), [])) testEnv stW []).2.1.1 ≠ []) ∧
    (executeCommand testEnv 1 stW (str "mkdir")).2.1 =
      (redMsg (str "mkdir: missing operand"), 1) := by
  refine ⟨by decide, ?_, by decide, ?_, ?_, ?_, ?_⟩
  · exact (c1_amended testEnv 0 stW).2.2.2.1 (str "x") (str "ghost.txt") (by decide)
  · exact (c1_amended testEnv 0 stW).2.2.2.2.1 (str "x") (str "locked.txt") (str "secret") (by decide)
  · exact (c1_amended testEnv 0 stW).1 (fun st _ => (st, (str "", 0), [])) stW (str "kill")
      (str "kill") [] (by decide)
  · exact (c1_amended testEnv 0 stW).2.2.1 (fun st _ => (st, (str "", 0), [])) stW
  · exact (c1_amended testEnv 0 stW).2.2.2.2.2.2.1.1

theorem find_append_some {α : Type} (p : α → Bool) (l1 l2 : List α) (a : α)
    (h : l1.find? p = some a) : (l1 ++ l2).find? p = some a := by
  induction l1 with
  | nil => simp at h
  | cons x xs ih =>
    by_cases hp : p x = true
    · simp only [List.find?_cons, hp] at h
      rw [List.cons_append]
      simp only [List.find?_cons, hp]
      exact h
    · have hp2 : p x = false := by simpa using hp
      simp only [List.find?_cons, hp2] at h
      rw [List.cons_append]
      simp only [List.find?_cons, hp2]
      exact ih h

theorem find_append_none {α : Type} (p : α → Bool) (l1 l2 : List α)
    (h : l1.find? p = none) : (l1 ++ l2).find? p = l2.find? p := by
  induction l1 with
  | nil => simp
  | cons x xs ih =>
    by_cases hp : p x = true
    · simp only [List.find?_cons, hp] at h
      exact absurd h (by simp)
    · have hp2 : p x = false := by simpa using hp
      simp only [List.find?_cons, hp2] at h
      rw [List.cons_append]
      simp only [List.find?_cons, hp2]
      exact ih h

theorem fsEntry_of_extend (fs : FileSys) (ext : List (Path × FEntry)) (q : Path) (v : FEntry)
    (h : fsEntry fs q = some v) : fsEntry ⟨fs.entries ++ ext⟩ q = some v := by
  rw [fsEntry] at h ⊢
  by_cases hq : q.isEmpty = true
  · rw [if_pos hq] at h ⊢
    exact h
  · rw [if_neg hq] at h ⊢
    rcases ho : fs.entries.find? (fun e => decide (e.1 = q)) with _ | e
    · rw [ho] at h; simp at h
    · rw [ho] at h
      rw [find_append_some _ _ _ _ ho]
      exact h

theorem fsEntry_append_new (fs : FileSys) (ext : List (Path × FEntry)) (q : Path) (v : FEntry)
    (hq : q ≠ []) (h : fsEntry fs q = none) :
    fsEntry ⟨fs.entries ++ (q, v) :: ext⟩ q = some v := by
  rw [fsEntry] at h ⊢
  rw [if_neg (by simpa using hq)] at h ⊢
  rcases ho : fs.entries.find? (fun e => decide (e.1 = q)) with _ | e
  · rw [find_append_none _ _ _ ho]
    simp [List.find?_cons]
  · rw [ho] at h; simp at h

theorem makedirsAux_ext (L : List Str) : ∀ (fs : FileSys) (base : Path) (fs2 : FileSys)
    (e : Option Nat), makedirsAux fs base L = (fs2, e) →
    ∃ ext, fs2.entries = fs.entries ++ ext ∧
      ∀ q v, (q, v) ∈ ext → base.length < q.length := by
  induction L with
  | nil =>
    intro fs base fs2 e h
    rw [makedirsAux] at h
    cases h
    exact ⟨[], by simp, by simp⟩
  | cons c rest ih =>
    intro fs base fs2 e h
    match rest, h with
    | [], h => 
      rw [makedirsAux] at h
      split at h
      · cases h; exact ⟨[], by simp, by simp⟩
      · cases h; exact ⟨[], by simp, by simp⟩
      · cases h
        refine ⟨[(base ++ [c], FEntry.dir)], by simp, ?_⟩
        intro q v hm
        simp at hm
        rw [hm.1]
        simp
    | c2 :: rest2, h =>
      rw [makedirsAux] at h
      split at h
      · rcases ih _ _ _ _ h with ⟨ext, he, hlen⟩
        refine ⟨ext, he, fun q v hm => ?_⟩
        have := hlen q v hm
        simp at this
        omega
      · cases h; exact ⟨[], by simp, by simp⟩
      · rcases ih _ _ _ _ h with ⟨ext, he, hlen⟩
        refine ⟨(base ++ [c], FEntry.dir) :: ext, by simpa using he, ?_⟩
        intro q v hm
        rcases List.mem_cons.mp hm with hm | hm
        · cases hm; simp
        · have := hlen q v hm
          simp at this
          omega

theorem makedirsAux_idem (L : List Str) : ∀ (fs : FileSys) (base : Path) (fs2 : FileSys)
    (e : Option Nat), makedirsAux fs base L = (fs2, e) →
    makedirsAux fs2 base L = (fs2, e) := by
  induction L with
  | nil =>
    intro fs base fs2 e h
    rw [makedirsAux] at h
    cases h
    rw [makedirsAux]
  | cons c rest ih =>
    intro fs base fs2 e h
    match rest, h with
    | [], h =>
      rw [makedirsAux] at h ⊢
      split at h
      next hdir =>
        cases h
        rw [hdir]
      next hfile =>
        cases h
        next content readable => rw [hfile]
      next hnone =>
        cases h
        rw [fsEntry_append_new fs [] (base ++ [c]) FEntry.dir (by simp) hnone]
    | c2 :: rest2, h =>
      rw [makedirsAux] at h ⊢
      split at h
      next hdir =>
        rcases makedirsAux_ext _ _ _ _ _ h with ⟨ext, he, _⟩
        have hdir2 : fsEntry fs2 (base ++ [c]) = some FEntry.dir := by
          rw [show fs2 = ⟨fs.entries ++ ext⟩ from by cases fs2; simpa using he]
          exact fsEntry_of_extend fs ext _ _ hdir
        rw [hdir2]
        exact ih _ _ _ _ h
      next hfile =>
        cases h
        next content readable => rw [hfile]
      next hnone =>
        rcases makedirsAux_ext _ _ _ _ _ h with ⟨ext, he, _⟩
        have hdir2 : fsEntry fs2 (base ++ [c]) = some FEntry.dir := by
          rw [show fs2 = ⟨(fs.entries ++ [(base ++ [c], FEntry.dir)]) ++ ext⟩ from by
            cases fs2; simpa using he]
          have : fsEntry ⟨fs.entries ++ [(base ++ [c], FEntry.dir)]⟩ (base ++ [c]) =
              some FEntry.dir := by
            have := fsEntry_append_new fs [] (base ++ [c]) FEntry.dir (by simp) hnone
            simpa using this
          exact fsEntry_of_extend ⟨fs.entries ++ [(base ++ [c], FEntry.dir)]⟩ ext _ _ this
        rw [hdir2]
        exact ih _ _ _ _ h

theorem makedirsAux_target (L : List Str) : ∀ (fs : FileSys) (base : Path) (fs2 : FileSys),
    fsEntry fs base = some FEntry.dir → makedirsAux fs base L = (fs2, none) →
    fsEntry fs2 (base ++ L) = some FEntry.dir := by
  induction L with
  | nil =>
    intro fs base fs2 hbase h
    rw [makedirsAux] at h
    cases h
    simpa using hbase
  | cons c rest ih =>
    intro fs base fs2 hbase h
    match rest, h with
    | [], h =>
      rw [makedirsAux] at h
      split at h
      next hdir => cases h; simpa using hdir
      next hfile => cases h
      next hnone =>
        cases h
        have := fsEntry_append_new fs [] (base ++ [c]) FEntry.dir (by simp) hnone
        simpa using this
    | c2 :: rest2, h =>
      rw [makedirsAux] at h
      split at h
      next hdir =>
        have := ih _ _ _ hdir h
        simpa [List.append_assoc] using this
      next hfile => cases h
      next hnone =>
        have hg : fsEntry ⟨fs.entries ++ [(base ++ [c], FEntry.dir)]⟩ (base ++ [c]) =
            some FEntry.dir := by
          have := fsEntry_append_new fs [] (base ++ [c]) FEntry.dir (by simp) hnone
          simpa using this
        have := ih _ _ _ hg h
        simpa [List.append_assoc] using this

theorem makedirsAux_noop (L : List Str) : ∀ (fs : FileSys) (base : Path),
    (∀ i, 0 < i → i ≤ L.length → fsEntry fs (base ++ L.take i) = some FEntry.dir) →
    makedirsAux fs base L = (fs, none) := by
  induction L with
  | nil => intro fs base _; rw [makedirsAux]
  | cons c rest ih =>
    intro fs base hall
    have h1 : fsEntry fs (base ++ [c]) = some FEntry.dir := by
      have := hall 1 (by omega) (by simp)
      simpa using this
    match rest with
    | [] =>
      rw [makedirsAux, h1]
    | c2 :: rest2 =>
      rw [makedirsAux, h1]
      apply ih fs (base ++ [c])
      intro i hi hile
      have := hall (i + 1) (by omega) (by simpa using hile)
      simpa [List.append_assoc] using this

theorem makedirs_noop_of_wf (fs : FileSys) (P : Path) (hwf : fsWFb fs = true)
    (htgt : fsEntry fs P = some FEntry.dir) : makedirs fs P = (fs, none) := by
  rw [makedirs]
  apply makedirsAux_noop
  intro i hi hile
  rw [List.nil_append]
  rcases Nat.lt_or_ge i P.length with hlt | hge
  · have hPne : P ≠ [] := by
      intro hcon
      rw [hcon] at hlt
      simp at hlt
    rw [fsEntry, if_neg (by simpa using hPne)] at htgt
    rcases ho : fs.entries.find? (fun e => decide (e.1 = P)) with _ | e0
    · rw [ho] at htgt
      simp at htgt
    · have he0P : e0.1 = P := by
        have := List.find?_some ho
        simpa using this
      have he0mem : e0 ∈ fs.entries := List.mem_of_find?_eq_some ho
      rw [fsWFb, List.all_eq_true] at hwf
      have h1 := hwf e0 he0mem
      rw [List.all_eq_true] at h1
      have h2 := h1 i (by rw [List.mem_range, he0P]; exact hlt)
      rw [he0P] at h2
      simpa using h2
  · have heq : i = P.length := by omega
    rw [heq, List.take_length]
    exact htgt

theorem exec_mkdir_eval (env : Env) (fuel : Nat) (st : TermState) (X : Str)
    (hX : ∀ c ∈ X, isWS c = false) (hXne : X ≠ []) (hw : hasWildcard X = false) :
    executeCommand env (fuel + 1) st (str "mkdir " ++ X) =
      (match makedirs st.fs (resolveFrom st.currentDir X) with
       | (fs2, none) =>
         ({ st with history := st.history ++ [str "mkdir " ++ X], fs := fs2 },
           (str "", 0), [str "mkdir"])
       | (fs2, some errno) =>
         ({ st with history := st.history ++ [str "mkdir " ++ X], fs := fs2 },
           (redMsg (str "mkdir: " ++ X ++
             (if errno = 17 then str ": [Errno 17] File exists"
              else str ": [Errno 20] Not a directory")), 1), [str "mkdir"])) := by
  have hb : isBlank (str "mkdir " ++ X) = false :=
    isBlank_append_false (str "mkdir ") X (by decide)
  have hshape : str "mkdir " ++ X = str "mkdir" ++ (' ' :: X) := rfl
  have hexp : expandAliases (str "mkdir " ++ X) = str "mkdir " ++ X := by
    rw [hshape]
    exact expandAliases_none (str "mkdir") (' ' :: X) (by decide) (by decide)
      (Or.inr ⟨' ', X, rfl, by decide⟩) (by decide)
  have hpsplit : pySplit (expandAliases (str "mkdir " ++ X)) = [str "mkdir", X] := by
    rw [hexp, hshape]
    exact pySplit_two (str "mkdir") X (by decide) (by decide) hX hXne
  have hstep := exec_dispatch env fuel st (str "mkdir " ++ X) (str "mkdir") [X] hb hpsplit
  have hlow : lowerStr (str "mkdir") = str "mkdir" := by decide
  rw [hlow] at hstep
  rw [hstep, dispatch_mkdir]
  have hm : handleMkdir { st with history := st.history ++ [str "mkdir " ++ X] } [X] =
      (match makedirs st.fs (resolveFrom st.currentDir X) with
       | (fs2, none) =>
         ({ st with history := st.history ++ [str "mkdir " ++ X], fs := fs2 }, (str "", 0))
       | (fs2, some errno) =>
         ({ st with history := st.history ++ [str "mkdir " ++ X], fs := fs2 },
           (redMsg (str "mkdir: " ++ X ++
             (if errno = 17 then str ": [Errno 17] File exists"
              else str ": [Errno 20] Not a directory")), 1))) := by
    rw [handleMkdir]
    rw [if_neg (by simp)]
    rw [mkdirLoop]
    have hmatched : (if (if hasWildcard X = true
        then globExpand { st with history := st.history ++ [str "mkdir " ++ X] }.fs
          { st with history := st.history ++ [str "mkdir " ++ X] }.currentDir X
        else [X]).isEmpty = true ∨ hasWildcard X = true then [X]
        else if hasWildcard X = true
        then globExpand { st with history := st.history ++ [str "mkdir " ++ X] }.fs
          { st with history := st.history ++ [str "mkdir " ++ X] }.currentDir X
        else [X]) = [X] := by
      rw [if_neg (by simp [hw])]
      rw [if_neg (by simp [hw])]
    rw [hmatched]
    rw [mkdirEach.eq_def]
    dsimp only
    cases hmk : makedirs st.fs (resolveFrom st.currentDir X) with
    | mk fs2 e =>
      cases e with
      | none =>
        dsimp only
        rw [mkdirEach.eq_def]
        dsimp only
        rw [mkdirLoop]
      | some errno => rfl
  rw [hm]
  cases hmk : makedirs st.fs (resolveFrom st.currentDir X) with
  | mk fs2 e =>
    cases e with
    | none => rfl
    | some errno => rfl

/-- C10: mkdir is idempotent at the public interface: on a well-formed
filesystem, `execute("mkdir X")` when `X` already resolves to an existing
directory returns `("", 0)` and leaves the filesystem unchanged; running
`mkdir X` twice always produces the same final filesystem and the same
result as running it once; and a successful run leaves `X` (with any
missing intermediate parents, which `os.makedirs` creates) present as a
directory. -/
theorem c10_mkdir_idem (env : Env) (fuel : Nat) (st : TermState) (X : Str)
    (hX : ∀ c ∈ X, isWS c = false) (hXne : X ≠ []) (hw : hasWildcard X = false) :
    (fsWFb st.fs = true →
      fsEntry st.fs (resolveFrom st.currentDir X) = some FEntry.dir →
      (executeCommand env (fuel + 1) st (str "mkdir " ++ X)).2.1 = (str "", 0) ∧
      (executeCommand env (fuel + 1) st (str "mkdir " ++ X)).1.fs = st.fs) ∧
    ((executeCommand env (fuel + 1)
        (executeCommand env (fuel + 1) st (str "mkdir " ++ X)).1 (str "mkdir " ++ X)).1.fs =
      (executeCommand env (fuel + 1) st (str "mkdir " ++ X)).1.fs ∧
      (executeCommand env (fuel + 1)
        (executeCommand env (fuel + 1) st (str "mkdir " ++ X)).1 (str "mkdir " ++ X)).2.1 =
      (executeCommand env (fuel + 1) st (str "mkdir " ++ X)).2.1) ∧
    ((executeCommand env (fuel + 1) st (str "mkdir " ++ X)).2.1.2 = 0 →
      fsEntry (executeCommand env (fuel + 1) st (str "mkdir " ++ X)).1.fs
        (resolveFrom st.currentDir X) = some FEntry.dir) := by
  have hev := exec_mkdir_eval env fuel st X hX hXne hw
  refine ⟨?_, ?_, ?_⟩
  · intro hwf htgt
    rw [hev, makedirs_noop_of_wf st.fs _ hwf htgt]
    exact ⟨rfl, rfl⟩
  · rw [hev]
    cases hmk : makedirs st.fs (resolveFrom st.currentDir X) with
    | mk fs2 e =>
      have hidem : makedirs fs2 (resolveFrom st.currentDir X) = (fs2, e) := by
        rw [makedirs] at hmk ⊢
        exact makedirsAux_idem _ _ _ _ _ hmk
      cases e with
      | none =>
        dsimp only
        rw [exec_mkdir_eval env fuel _ X hX hXne hw]
        dsimp only
        rw [hidem]
        exact ⟨rfl, rfl⟩
      | some errno =>
        dsimp only
        rw [exec_mkdir_eval env fuel _ X hX hXne hw]
        dsimp only
        rw [hidem]
        exact ⟨rfl, rfl⟩
  · intro h0
    rw [hev] at h0 ⊢
    cases hmk : makedirs st.fs (resolveFrom st.currentDir X) with
    | mk fs2 e =>
      cases e with
      | none =>
        dsimp only
        have hbase : fsEntry st.fs [] = some FEntry.dir := by
          rw [fsEntry]
          simp
        rw [makedirs] at hmk
        have := makedirsAux_target _ st.fs [] fs2 hbase hmk
        simpa using this
      | some errno =>
        rw [hmk] at h0
        simp at h0

/-- Witness for C10: `mkdir sub` on an existing directory is a no-op
success, and `mkdir newdir` twice yields the same filesystem as once. -/
theorem c10_witness :
    ((executeCommand testEnv 1 stW (str "mkdir " ++ str "sub")).2.1 = (str "", 0) ∧
      (executeCommand testEnv 1 stW (str "mkdir " ++ str "sub")).1.fs = stW.fs) ∧
    ((executeCommand testEnv 1
        (executeCommand testEnv 1 stW (str "mkdir " ++ str "newdir")).1
        (str "mkdir " ++ str "newdir")).1.fs =
      (executeCommand testEnv 1 stW (str "mkdir " ++ str "newdir")).1.fs) := by
  refine ⟨?_, ?_⟩
  · exact (c10_mkdir_idem testEnv 0 stW (str "sub") (by decide) (by decide)
      (by decide)).1 (by decide) (by decide)
  · exact ((c10_mkdir_idem testEnv 0 stW (str "newdir") (by decide) (by decide)
      (by decide)).2.1).1

end Terminal
